import Mathlib

/-!
# Library management: validation engine and inventory ledger

A shallow embedding of `server.js`, of `client/src/components/Validator.jsx` and of the
reducer of `client/src/components/BookDashboard.jsx`.

Modelling conventions.

* A JavaScript string is a list of characters (`JsString`).
* A record field that holds text is `Option JsString`: `none` is an absent key
  (`undefined`), `some s` is the string `s`.
* `copiesAvailable` is a `NumField`: absent, `NaN`, or an integer-valued Number. A Number is
  an IEEE 754 double: `x - 1` and `x + 1` are the exact result rounded to the nearest
  double, ties to even (`toDouble`): the exact result while its magnitude is below 2^53.
  Comparisons of Numbers are exact.
* Records carry the seven fields of a book and `borrowedDate`. JSON `null`, values of
  another type in a field, fractional numbers, infinities and extra keys are outside the
  model.
* A time value is an `Int` number of milliseconds since the epoch; an invalid date
  (`NaN` time value) is `none`.
* `Date.parse` is specified by ECMAScript only for the ISO date-time format. The date-only
  forms are modelled concretely (`parseIsoDate`); every other string is handed to a
  parameter `host : JsString → Option Int`, the host's implementation-defined parser.
* The clock is an explicit argument (`now`) of every function that reads it.
* A route handler is synchronous, so the server runs it to completion before the next
  request: the ledger is a state machine whose steps are whole handler executions.
-/

/-! ## Strings -/

/-- A JavaScript string value. -/
abbrev JsString := List Char

/-- The characters removed by `String.prototype.trim`: ECMAScript WhiteSpace and
LineTerminator code points. -/
def isWhiteSpace (c : Char) : Bool :=
  let n := c.toNat
  n = 0x09 || n = 0x0A || n = 0x0B || n = 0x0C || n = 0x0D || n = 0x20 || n = 0xA0 ||
  n = 0x1680 || (0x2000 ≤ n && n ≤ 0x200A) || n = 0x2028 || n = 0x2029 || n = 0x202F ||
  n = 0x205F || n = 0x3000 || n = 0xFEFF

/-- The builtin `String.prototype.trim`. -/
def trim (s : JsString) : JsString :=
  (s.dropWhile isWhiteSpace).rdropWhile isWhiteSpace

/-- Truthiness of a text field: `undefined` and the empty string are falsy. -/
def truthy : Option JsString → Bool
  | none => false
  | some [] => false
  | some (_ :: _) => true

/-! ## The ISBN pattern `/^(?:\d{9}[\dXx]|\d{13})$/` -/

/-- The class `\d`. -/
def isDigit (c : Char) : Bool := '0' ≤ c && c ≤ '9'

/-- The class `[\dXx]`. -/
def isDigitOrX (c : Char) : Bool := isDigit c || c = 'X' || c = 'x'

/-- Anchored match `^c₁c₂…cₙ$` of a sequence of character classes. -/
def matchClasses : List (Char → Bool) → JsString → Bool
  | [], [] => true
  | p :: ps, c :: cs => p c && matchClasses ps cs
  | _, _ => false

/-- The test `/^(?:\d{9}[\dXx]|\d{13})$/.test(isbn)`: an alternation of two anchored
sequences of character classes. -/
def isbnPattern (isbn : JsString) : Bool :=
  matchClasses (List.replicate 9 isDigit ++ [isDigitOrX]) isbn ||
  matchClasses (List.replicate 13 isDigit) isbn

/-! ## Calendar arithmetic of the builtin `Date` -/

/-- Milliseconds in a day. -/
def msPerDay : Int := 86400000

/-- The largest time value a `Date` can hold (100 000 000 days). -/
def maxTime : Int := 8640000000000000

/-- ECMAScript `TimeClip`: a time value out of range is `NaN`. -/
def timeClip (t : Int) : Option Int :=
  if -maxTime ≤ t ∧ t ≤ maxTime then some t else none

/-- Proleptic Gregorian date `(year, month, day)` of a day number (days since 1970-01-01).
Years are counted from 1 March so that the leap day is the last day of the year. -/
def civilFromDays (z : Int) : Int × Int × Int :=
  let s := z + 719468
  let era := s / 146097
  let r0 := s % 146097
  let n100 := if r0 / 36524 < 4 then r0 / 36524 else 3
  let r1 := r0 - n100 * 36524
  let n4 := r1 / 1461
  let r2 := r1 % 1461
  let n1 := if r2 / 365 < 4 then r2 / 365 else 3
  let doy := r2 - n1 * 365
  let yoe := n100 * 100 + n4 * 4 + n1
  let mp := (5 * doy + 2) / 153
  let d := doy - (153 * mp + 2) / 5 + 1
  let m := if mp < 10 then mp + 3 else mp - 9
  (era * 400 + yoe + (if m ≤ 2 then 1 else 0), m, d)

/-- Day number (days since 1970-01-01) of a proleptic Gregorian date. -/
def daysFromCivil (y0 m d : Int) : Int :=
  let y := if m ≤ 2 then y0 - 1 else y0
  let era := y / 400
  let yoe := y % 400
  let mp := if m > 2 then m - 3 else m + 9
  let doy := (153 * mp + 2) / 5 + d - 1
  era * 146097 + yoe * 365 + yoe / 4 - yoe / 100 + doy - 719468

/-- Gregorian leap years. -/
def isLeapYear (y : Int) : Bool := y % 4 = 0 ∧ (y % 100 ≠ 0 ∨ y % 400 = 0)

/-- Number of days of month `m` in year `y`. -/
def daysInMonth (y m : Int) : Int :=
  if m = 2 then (if isLeapYear y then 29 else 28)
  else if m = 4 ∨ m = 6 ∨ m = 9 ∨ m = 11 then 30 else 31

/-- The triple names a day that exists in the calendar. -/
def validCivil (y m d : Int) : Bool :=
  1 ≤ m ∧ m ≤ 12 ∧ 1 ≤ d ∧ d ≤ daysInMonth y m

/-! ## Formatting: `Date.prototype.toISOString` -/

/-- The decimal digit character of `n % 10`. -/
def digitChar (n : Nat) : Char := Char.ofNat (48 + n % 10)

/-- Two decimal digits, zero padded. -/
def pad2 (n : Nat) : JsString := [digitChar (n / 10), digitChar n]

/-- Three decimal digits, zero padded. -/
def pad3 (n : Nat) : JsString := [digitChar (n / 100), digitChar (n / 10), digitChar n]

/-- Four decimal digits, zero padded. -/
def pad4 (n : Nat) : JsString :=
  [digitChar (n / 1000), digitChar (n / 100), digitChar (n / 10), digitChar n]

/-- Six decimal digits, zero padded. -/
def pad6 (n : Nat) : JsString :=
  [digitChar (n / 100000), digitChar (n / 10000), digitChar (n / 1000), digitChar (n / 100),
   digitChar (n / 10), digitChar n]

/-- The year of an ISO string: four digits for the years 0 to 9999, otherwise a sign and
six digits (the expanded-year form). -/
def isoYear (y : Int) : JsString :=
  if 0 ≤ y ∧ y ≤ 9999 then pad4 y.toNat
  else (if y < 0 then '-' else '+') :: pad6 y.natAbs

/-- The date part `YYYY-MM-DD` of `toISOString` (the calendar date in UTC). -/
def isoDatePart (t : Int) : JsString :=
  let c := civilFromDays (t / msPerDay)
  isoYear c.1 ++ ('-' :: (pad2 c.2.1.toNat ++ ('-' :: pad2 c.2.2.toNat)))

/-- The time part `HH:mm:ss.sssZ` of `toISOString`. -/
def isoTimePart (t : Int) : JsString :=
  let ms := (t % msPerDay).toNat
  pad2 (ms / 3600000) ++ (':' :: (pad2 (ms / 60000 % 60) ++ (':' :: (pad2 (ms / 1000 % 60) ++
    ('.' :: (pad3 (ms % 1000) ++ ['Z']))))))

/-- The builtin `Date.prototype.toISOString` of a valid time value. -/
def toISOString (t : Int) : JsString :=
  isoDatePart t ++ ('T' :: isoTimePart t)

/-- The expression `.split('T')[0]`: the text before the first `T`. -/
def splitT0 (s : JsString) : JsString := s.takeWhile (fun c => c != 'T')

/-! ## Parsing: `Date.parse` -/

/-- Value of a decimal digit. -/
def digitVal (c : Char) : Option Nat :=
  if isDigit c then some (c.toNat - 48) else none

/-- Value of a run of decimal digits read from the left, starting from `acc`. -/
def parseDigitsFrom (acc : Nat) : JsString → Option Nat
  | [] => some acc
  | c :: cs =>
    match digitVal c with
    | some v => parseDigitsFrom (acc * 10 + v) cs
    | none => none

/-- Value of a string of decimal digits. -/
def parseDigits (s : JsString) : Option Nat := parseDigitsFrom 0 s

/-- The year `YYYY` at the start of a string, with the rest of the string. -/
def parseUnsignedYear : JsString → Option (Int × JsString)
  | a :: b :: c :: d :: rest =>
    (parseDigits [a, b, c, d]).map fun (n : Nat) => ((n : Int), rest)
  | _ => none

/-- The six digits of an expanded year `±YYYYYY`; the year `-000000` is not allowed. -/
def parseExpandedYear (neg : Bool) : JsString → Option (Int × JsString)
  | a :: b :: c :: d :: e :: f :: rest =>
    (parseDigits [a, b, c, d, e, f]).bind fun (n : Nat) =>
      if neg then (if n = 0 then none else some (-(n : Int), rest))
      else some ((n : Int), rest)
  | _ => none

/-- The year of an ISO date string. -/
def parseYear : JsString → Option (Int × JsString)
  | [] => none
  | c :: cs =>
    if c = '+' then parseExpandedYear false cs
    else if c = '-' then parseExpandedYear true cs
    else parseUnsignedYear (c :: cs)

/-- What follows the year in a date-only form: nothing, `-MM`, or `-MM-DD`; a missing
month or day is 1. -/
def parseMonthDay : JsString → Option (Int × Int)
  | [] => some (1, 1)
  | [h, a, b] =>
    if h = '-' then (parseDigits [a, b]).map fun (m : Nat) => ((m : Int), (1 : Int)) else none
  | [h, a, b, k, c, d] =>
    if h = '-' ∧ k = '-' then
      (parseDigits [a, b]).bind fun (m : Nat) =>
        (parseDigits [c, d]).map fun (dd : Nat) => ((m : Int), (dd : Int))
    else none
  | _ => none

/-- The ECMAScript date-only forms `YYYY`, `YYYY-MM`, `YYYY-MM-DD` (also with an expanded
year), read as midnight UTC. A string of another shape, or one naming a day that does not
exist, is not recognised here. -/
def parseIsoDate (s : JsString) : Option Int :=
  (parseYear s).bind fun yr =>
    (parseMonthDay yr.2).bind fun md =>
      if validCivil yr.1 md.1 md.2 then some (daysFromCivil yr.1 md.1 md.2 * msPerDay)
      else none

/-- The builtin `Date.parse`, which `new Date(string)` uses: the date-only ISO forms are
fixed by the language; every other string is left to the host. The result is clipped to
the range of time values. -/
def dateParse (host : JsString → Option Int) (s : JsString) : Option Int :=
  (match parseIsoDate s with
   | some t => some t
   | none => host s).bind timeClip

/-- The calendar date written `date` (a date-only ISO string), read as midnight UTC, is
after the instant `now`. -/
def isAfter (date : JsString) (now : Int) : Bool :=
  match parseIsoDate date with
  | some d => now < d
  | none => false

/-- The text `YYYY-MM-DD` of a year, a month and a day. -/
def ymd (y m d : Nat) : JsString := pad4 y ++ ('-' :: (pad2 m ++ ('-' :: pad2 d)))

/-- The character is a hyphen. -/
def isHyphen (c : Char) : Bool := c = '-'

/-- The character is a sign, `+` or `-`. -/
def isSign (c : Char) : Bool := c = '+' || c = '-'

/-- The shape `YYYY-MM-DD`: four digits, hyphen, two digits, hyphen, two digits. -/
def isCanonicalDate (s : JsString) : Bool :=
  matchClasses
    [isDigit, isDigit, isDigit, isDigit, isHyphen, isDigit, isDigit, isHyphen, isDigit, isDigit]
    s

/-- The expanded-year shape `±YYYYYY-MM-DD`: a sign, six digits, hyphen, two digits, hyphen,
two digits. -/
def isExpandedDate (s : JsString) : Bool :=
  matchClasses
    [isSign, isDigit, isDigit, isDigit, isDigit, isDigit, isDigit, isHyphen, isDigit, isDigit,
     isHyphen, isDigit, isDigit]
    s

/-- The calendar date, at the instant `now`, on a clock whose zone is `offsetMinutes`
ahead of UTC. -/
def localDate (offsetMinutes now : Int) : JsString :=
  isoDatePart (now + offsetMinutes * 60000)

/-! ## Book records -/

/-- The spacing of the doubles around the magnitude `m`: 1 below 2^53, doubled in every
binade above it (a double has a 53-bit significand). The exponent of a finite double is
below 1024, which bounds the recursion. -/
def ulp (fuel m : Nat) : Nat :=
  match fuel with
  | 0 => 1
  | fuel + 1 => if m < 9007199254740992 then 1 else 2 * ulp fuel (m / 2)

/-- The double nearest to the magnitude `m`, ties to the even significand (the IEEE 754
rounding of every Number operation). -/
def roundNat (m : Nat) : Nat :=
  let u := ulp 1024 m
  let q := m / u
  let r := m % u
  if 2 * r < u then q * u
  else if u < 2 * r then (q + 1) * u
  else if q % 2 = 0 then q * u
  else (q + 1) * u

/-- The Number value of the exact integer `n`: the nearest double, ties to even. -/
def toDouble (n : Int) : Int :=
  if n < 0 then -(roundNat n.natAbs : Int) else (roundNat n.natAbs : Int)

/-- A numeric field of a record: absent (`undefined`), `NaN`, or an integer number. -/
inductive NumField where
  | undefined
  | nan
  | num (n : Int)
  deriving DecidableEq, Repr

namespace NumField

/-- The comparison `x < k` after `ToNumber`: false for `undefined` and `NaN`. -/
def lt (x : NumField) (k : Int) : Bool :=
  match x with
  | num n => n < k
  | _ => false

/-- The comparison `x >= k` after `ToNumber`: false for `undefined` and `NaN`. -/
def ge (x : NumField) (k : Int) : Bool :=
  match x with
  | num n => k ≤ n
  | _ => false

/-- The comparison `x <= k` after `ToNumber`: false for `undefined` and `NaN`. -/
def le (x : NumField) (k : Int) : Bool :=
  match x with
  | num n => n ≤ k
  | _ => false

/-- The expression `x - 1`: `NaN` for `undefined` and `NaN`, otherwise the exact difference
rounded to a double. -/
def pred (x : NumField) : NumField :=
  match x with
  | num n => num (toDouble (n - 1))
  | _ => nan

/-- The expression `x + 1`: `NaN` for `undefined` and `NaN`, otherwise the exact sum
rounded to a double. -/
def succ (x : NumField) : NumField :=
  match x with
  | num n => num (toDouble (n + 1))
  | _ => nan

/-- The value seen after an object spread: the later object wins when it has the key. -/
def orElse (later earlier : NumField) : NumField :=
  match later with
  | undefined => earlier
  | v => v

end NumField

/-- A book record, as held in `books` and `userBooks` and as sent in a request body. -/
structure Book where
  id : Option JsString
  title : Option JsString
  author : Option JsString
  ISBN : Option JsString
  publishedDate : Option JsString
  genre : Option JsString
  copiesAvailable : NumField
  borrowedDate : Option JsString
  deriving DecidableEq, Repr

/-- The object spread `{...a, ...b}`: every key of `b` overrides the key of `a`. -/
def spread (a b : Book) : Book :=
  { id := b.id.orElse fun _ => a.id
    title := b.title.orElse fun _ => a.title
    author := b.author.orElse fun _ => a.author
    ISBN := b.ISBN.orElse fun _ => a.ISBN
    publishedDate := b.publishedDate.orElse fun _ => a.publishedDate
    genre := b.genre.orElse fun _ => a.genre
    copiesAvailable := b.copiesAvailable.orElse a.copiesAvailable
    borrowedDate := b.borrowedDate.orElse fun _ => a.borrowedDate }

/-- The value `{ isValid, validatedData, errors }` returned by `validateBook`. -/
structure ValidationResult where
  isValid : Bool
  validatedData : Book
  errors : List JsString
  deriving DecidableEq, Repr

/-! ## `Validator.jsx`: the standalone `validateBook` -/

namespace Validator

/-- `validator.validateISBN`. -/
def validateISBN (isbn : JsString) : Bool := isbnPattern isbn

/-- `validator.validatePublishedDate`: the date parses and is not after `today`. -/
def validatePublishedDate (host : JsString → Option Int) (now : Int) (date : JsString) :
    Bool :=
  match dateParse host date with
  | some publishedDate => publishedDate ≤ now
  | none => false

/-- `validator.validateAcademicCopies`. -/
def validateAcademicCopies (genre : Option JsString) (copies : NumField) : Bool :=
  genre != some "Academic".toList || (genre == some "Academic".toList && copies.ge 5)

/-- `validator.sanitizeString`: `str ? str.trim() : ''`. -/
def sanitizeString (str : Option JsString) : JsString :=
  match str with
  | some s => if truthy (some s) then trim s else []
  | none => []

/-- `validator.normalizeDate` (lines 147-151); the `normalizeDate` of the `BookValidator`
component (lines 29-33) is the same code. -/
def normalizeDate (host : JsString → Option Int) (dateStr : Option JsString) : JsString :=
  match dateStr with
  | some s =>
    if truthy (some s) then
      match dateParse host s with
      | some date => splitT0 (toISOString date)
      | none => []
    else []
  | none => []

/-- The standalone `validateBook` of `Validator.jsx` (lines 134-188). -/
def validateBook (host : JsString → Option Int) (now : Int) (bookData : Book) :
    ValidationResult :=
  let title := sanitizeString bookData.title
  let author := sanitizeString bookData.author
  let isbn := sanitizeString bookData.ISBN
  let publishedDate := normalizeDate host bookData.publishedDate
  let sanitizedData : Book :=
    { bookData with
      title := some title, author := some author, ISBN := some isbn,
      publishedDate := some publishedDate }
  let errors : List JsString := []
  let errors := if !truthy (some title) then errors ++ ["Title is required".toList] else errors
  let errors :=
    if !truthy (some author) then errors ++ ["Author is required".toList] else errors
  let errors :=
    if !truthy (some isbn) then errors ++ ["ISBN is required".toList]
    else if !validateISBN isbn then
      errors ++ ["Invalid ISBN format (must be 10 or 13 digits)".toList]
    else errors
  let errors :=
    if !truthy (some publishedDate) then errors ++ ["Published date is required".toList]
    else if !validatePublishedDate host now publishedDate then
      errors ++ ["Published date cannot be in the future".toList]
    else errors
  let errors :=
    if !validateAcademicCopies sanitizedData.genre sanitizedData.copiesAvailable then
      errors ++ ["Academic books must have at least 5 copies available".toList]
    else errors
  { isValid := errors.length == 0, validatedData := sanitizedData, errors := errors }

end Validator

/-! ## `server.js`: validation -/

namespace Server

/-- The inner `validateISBN` of the server's `validateBook`. -/
def validateISBN (isbn : JsString) : Bool := isbnPattern isbn

/-- The inner `validatePublishedDate`. -/
def validatePublishedDate (host : JsString → Option Int) (now : Int) (date : JsString) :
    Bool :=
  match dateParse host date with
  | some publishedDate => publishedDate ≤ now
  | none => false

/-- The inner `validateAcademicCopies`. -/
def validateAcademicCopies (genre : Option JsString) (copies : NumField) : Bool :=
  genre != some "Academic".toList || (genre == some "Academic".toList && copies.ge 5)

/-- The inner `sanitizeString`. -/
def sanitizeString (str : Option JsString) : JsString :=
  match str with
  | some s => if truthy (some s) then trim s else []
  | none => []

/-- The server's `validateBook` (lines 10-63): `publishedDate` is not normalised. -/
def validateBook (host : JsString → Option Int) (now : Int) (bookData : Book) :
    ValidationResult :=
  let title := sanitizeString bookData.title
  let author := sanitizeString bookData.author
  let isbn := sanitizeString bookData.ISBN
  let sanitizedData : Book :=
    { bookData with title := some title, author := some author, ISBN := some isbn }
  let errors : List JsString := []
  let errors := if !truthy (some title) then errors ++ ["Title is required".toList] else errors
  let errors :=
    if !truthy (some author) then errors ++ ["Author is required".toList] else errors
  let errors :=
    if !truthy (some isbn) then errors ++ ["ISBN is required".toList]
    else if !validateISBN isbn then
      errors ++ ["Invalid ISBN format (must be 10 or 13 digits)".toList]
    else errors
  let errors :=
    match sanitizedData.publishedDate with
    | some date =>
      if !truthy (some date) then errors ++ ["Published date is required".toList]
      else if !validatePublishedDate host now date then
        errors ++ ["Published date cannot be in the future".toList]
      else errors
    | none => errors ++ ["Published date is required".toList]
  let errors :=
    if !validateAcademicCopies sanitizedData.genre sanitizedData.copiesAvailable then
      errors ++ ["Academic books must have at least 5 copies available".toList]
    else errors
  { isValid := errors.length == 0, validatedData := sanitizedData, errors := errors }

/-! ## `server.js`: the ledger -/

/-- The two module-level arrays of `server.js`. -/
structure Ledger where
  books : List Book
  userBooks : List Book
  deriving DecidableEq, Repr

/-- The JSON body of a response. -/
inductive Body where
  | books (list : List Book)
  | book (b : Book)
  | errors (messages : List JsString)
  | success (message : JsString)
  deriving DecidableEq, Repr

/-- An HTTP response: status code and body. -/
structure Response where
  status : Nat
  body : Body
  deriving DecidableEq, Repr

/-- The first record of the initial `books` array. -/
def seedBook1 : Book :=
  { id := some "1".toList, title := some "To Kill a Mockingbird".toList,
    author := some "Harper Lee".toList, ISBN := some "9780061120084".toList,
    publishedDate := some "1960-07-11".toList, genre := some "Fiction".toList,
    copiesAvailable := .num 3, borrowedDate := none }

/-- The second record of the initial `books` array. -/
def seedBook2 : Book :=
  { id := some "2".toList, title := some "Principles of Physics".toList,
    author := some "David Halliday".toList, ISBN := some "9780470524633".toList,
    publishedDate := some "2010-06-14".toList, genre := some "Academic".toList,
    copiesAvailable := .num 5, borrowedDate := none }

/-- The third record of the initial `books` array. -/
def seedBook3 : Book :=
  { id := some "3".toList, title := some "1984".toList,
    author := some "George Orwell".toList, ISBN := some "9780451524935".toList,
    publishedDate := some "1949-06-08".toList, genre := some "Fiction".toList,
    copiesAvailable := .num 2, borrowedDate := none }

/-- The initial value of `books` (lines 66-94). -/
def seedBooks : List Book := [seedBook1, seedBook2, seedBook3]

/-- The state of a freshly started server. -/
def seed : Ledger := { books := seedBooks, userBooks := [] }

/-- The callback `book => book.id === bookId`. -/
def hasId (bookId : JsString) (book : Book) : Bool := book.id == some bookId

/-- The message of the 404 responses of update, delete and borrow. -/
def notFoundMessage (bookId : JsString) : JsString :=
  "Book with ID ".toList ++ bookId ++ " not found".toList

/-- The builtin `Number.prototype.toString` of an integer, as `Date.now().toString()`. -/
def numberToString (n : Int) : JsString := (toString n).toList

/-- `GET /api/books`. -/
def getBooks (s : Ledger) : Response × Ledger :=
  ({ status := 200, body := .books s.books }, s)

/-- `POST /api/books` (lines 109-131). `now` is the clock read by the validation and
`idNow` the later reading of `Date.now()`. -/
def postBook (host : JsString → Option Int) (now idNow : Int) (body : Book) (s : Ledger) :
    Response × Ledger :=
  let validation := validateBook host now body
  if !validation.isValid then
    ({ status := 400, body := .errors validation.errors }, s)
  else
    let newBook : Book := { validation.validatedData with id := some (numberToString idNow) }
    ({ status := 201, body := .book newBook }, { s with books := s.books ++ [newBook] })

/-- `PUT /api/books/:id` (lines 133-171). -/
def putBook (host : JsString → Option Int) (now : Int) (bookId : JsString) (body : Book)
    (s : Ledger) : Response × Ledger :=
  match s.books.findIdx? (hasId bookId), s.books.find? (hasId bookId) with
  | some bookIndex, some old =>
    let validation := validateBook host now body
    if !validation.isValid then
      ({ status := 400, body := .errors validation.errors }, s)
    else
      let updatedBook : Book := { spread old validation.validatedData with id := some bookId }
      ({ status := 200, body := .book updatedBook },
       { s with books := s.books.set bookIndex updatedBook })
  | _, _ => ({ status := 404, body := .errors [notFoundMessage bookId] }, s)

/-- `DELETE /api/books/:id` (lines 173-192). -/
def deleteBook (bookId : JsString) (s : Ledger) : Response × Ledger :=
  let initialLength := s.books.length
  let books := s.books.filter fun book => book.id != some bookId
  if books.length == initialLength then
    ({ status := 404, body := .errors [notFoundMessage bookId] }, { s with books := books })
  else
    ({ status := 200, body := .success "Book deleted successfully".toList },
     { s with books := books })

/-- `POST /api/books/:id/borrow` (lines 197-238). -/
def borrowBook (now : Int) (bookId : JsString) (s : Ledger) : Response × Ledger :=
  match s.books.find? (hasId bookId) with
  | none => ({ status := 404, body := .errors [notFoundMessage bookId] }, s)
  | some book =>
    if book.copiesAvailable.le 0 then
      ({ status := 400, body := .errors ["No copies available for borrowing".toList] }, s)
    else
      let books :=
        match s.books.findIdx? (hasId bookId) with
        | some bookIndex =>
          s.books.set bookIndex { book with copiesAvailable := book.copiesAvailable.pred }
        | none => s.books
      let userBook : Book := { book with borrowedDate := some (toISOString now) }
      ({ status := 200, body := .book userBook },
       { books := books, userBooks := s.userBooks ++ [userBook] })

/-- `POST /api/books/:id/return` (lines 240-268). -/
def returnBook (bookId : JsString) (s : Ledger) : Response × Ledger :=
  match s.userBooks.findIdx? (hasId bookId) with
  | none =>
    ({ status := 404,
       body := .errors ["You haven't borrowed the book with ID ".toList ++ bookId] }, s)
  | some _ =>
    let books :=
      match s.books.findIdx? (hasId bookId), s.books.find? (hasId bookId) with
      | some bookIndex, some old =>
        s.books.set bookIndex { old with copiesAvailable := old.copiesAvailable.succ }
      | _, _ => s.books
    let userBooks := s.userBooks.filter fun book => book.id != some bookId
    ({ status := 200, body := .success "Book returned successfully".toList },
     { books := books, userBooks := userBooks })

/-- `GET /api/user/books`. -/
def getUserBooks (s : Ledger) : Response × Ledger :=
  ({ status := 200, body := .books s.userBooks }, s)

/-- A request to the API, with the clock readings it will observe. -/
inductive Request where
  | getBooks
  | postBook (now idNow : Int) (body : Book)
  | putBook (now : Int) (bookId : JsString) (body : Book)
  | deleteBook (bookId : JsString)
  | borrowBook (now : Int) (bookId : JsString)
  | returnBook (bookId : JsString)
  | getUserBooks
  deriving DecidableEq, Repr

/-- Dispatch of a request to its route handler. -/
def handle (host : JsString → Option Int) (r : Request) (s : Ledger) : Response × Ledger :=
  match r with
  | .getBooks => getBooks s
  | .postBook now idNow body => postBook host now idNow body s
  | .putBook now bookId body => putBook host now bookId body s
  | .deleteBook bookId => deleteBook bookId s
  | .borrowBook now bookId => borrowBook now bookId s
  | .returnBook bookId => returnBook bookId s
  | .getUserBooks => getUserBooks s

/-- The state after a sequence of requests, handled one after the other. -/
def run (host : JsString → Option Int) (rs : List Request) (s : Ledger) : Ledger :=
  rs.foldl (fun st r => (handle host r st).2) s

/-- A host whose parser recognises nothing beyond the ISO date-only forms. -/
def noHost : JsString → Option Int := fun _ => none

/-- The rules of the validation engine that no later request undoes: title and author are
non-empty after trimming, the trimmed ISBN matches the pattern, and the published date is
present and parses. -/
def TextRulesOk (host : JsString → Option Int) (b : Book) : Prop :=
  sanitizeString b.title ≠ [] ∧ sanitizeString b.author ≠ [] ∧
  validateISBN (sanitizeString b.ISBN) = true ∧
  ∃ d, b.publishedDate = some d ∧ d ≠ [] ∧ ∃ t, dateParse host d = some t

/-- The `copiesAvailable` of a record is a non-negative integer. -/
def CopiesNonneg (b : Book) : Prop :=
  ∃ n, b.copiesAvailable = .num n ∧ 0 ≤ n

/-- The body of an add or update request carries a non-negative integer
`copiesAvailable`; other requests carry no body. -/
def nonnegInput : Request → Bool
  | .postBook _ _ body =>
    match body.copiesAvailable with
    | .num n => 0 ≤ n
    | _ => false
  | .putBook _ _ body =>
    match body.copiesAvailable with
    | .num n => 0 ≤ n
    | _ => false
  | _ => true

/-- A request body for a Fiction book that satisfies every text rule, with the given
`copiesAvailable`. -/
def fictionBody (copies : Int) : Book :=
  { id := none, title := some "A".toList, author := some "B".toList,
    ISBN := some "1234567890".toList, publishedDate := some "2020-01-01".toList,
    genre := some "Fiction".toList, copiesAvailable := .num copies, borrowedDate := none }

/-- A session: an add with 0 copies, then three borrow requests for book `3`. -/
def exhaustBook3 : List Request :=
  [.postBook 1730000000000 1730000000000 (fictionBody 0), .borrowBook 0 "3".toList,
   .borrowBook 1 "3".toList, .borrowBook 2 "3".toList]

/-- The record an accepted update is to store, field by field: the path id; title,
author and ISBN trimmed; the body's published date; and `genre`, `copiesAvailable` and
`borrowedDate` from the body when it has them, from the previous record otherwise. -/
def updatedRecord (bookId : JsString) (body old : Book) : Book :=
  { id := some bookId
    title := some (sanitizeString body.title)
    author := some (sanitizeString body.author)
    ISBN := some (sanitizeString body.ISBN)
    publishedDate := body.publishedDate
    genre :=
      match body.genre with
      | some g => some g
      | none => old.genre
    copiesAvailable :=
      match body.copiesAvailable with
      | .undefined => old.copiesAvailable
      | c => c
    borrowedDate :=
      match body.borrowedDate with
      | some b => some b
      | none => old.borrowedDate }

/-- A request body with text fields and a published date only: no `genre`, no
`copiesAvailable`. -/
def bareBody : Book :=
  { id := none, title := some "A".toList, author := some "B".toList,
    ISBN := some "1234567890".toList, publishedDate := some "2020-01-01".toList,
    genre := none, copiesAvailable := .undefined, borrowedDate := none }

/-- A session: an add of a Fiction book with 9007199254740994 copies (2^53 + 2), a double,
then a borrow of that book. -/
def borrowLarge : List Request :=
  [.postBook 1730000000000 1730000000000 (fictionBody 9007199254740994),
   .borrowBook 1730000000001 "1730000000000".toList]

/-- A record that satisfies every text rule, with genre "Academic" and no
`copiesAvailable`. -/
def academicNoCopies : Book :=
  { id := none, title := some "A".toList, author := some "B".toList,
    ISBN := some "1234567890".toList, publishedDate := some "2020-01-01".toList,
    genre := some "Academic".toList, copiesAvailable := .undefined, borrowedDate := none }

/-- What a request must guarantee for a property `P` of records to survive it: the record
written by an accepted add or update has `P`. -/
def WritesKeep (host : JsString → Option Int) (P : Book → Prop) : Request → Prop
  | .postBook now idNow body =>
    (validateBook host now body).isValid = true →
      P { (validateBook host now body).validatedData with id := some (numberToString idNow) }
  | .putBook now bookId body =>
    ∀ old, P old → (validateBook host now body).isValid = true →
      P { spread old (validateBook host now body).validatedData with id := some bookId }
  | _ => True

end Server

/-! ## `BookDashboard.jsx`: the reducer -/

namespace Dashboard

/-- The state of `booksReducer` (`initialState`, lines 10-15). -/
structure State where
  books : List Book
  userBooks : List Book
  isLoading : Bool
  error : Option JsString
  deriving DecidableEq, Repr

/-- The actions of `booksReducer` with their payloads (`ACTIONS`, lines 18-29); the borrow
action carries the reading of the clock it will observe. -/
inductive Action where
  | fetchBooksStart
  | fetchBooksSuccess (books : List Book) (userBooks : Option (List Book))
  | fetchBooksError (payload : JsString)
  | addBookSuccess (payload : Book)
  | updateBookSuccess (payload : Book)
  | deleteBookSuccess (payload : JsString)
  | borrowBookSuccess (now : Int) (payload : JsString)
  | returnBookSuccess (payload : JsString)
  | setError (payload : JsString)
  | clearError
  deriving DecidableEq, Repr

/-- The function `booksReducer` (lines 32-120). The result is `none` when the reducer
throws: borrow and return read `copiesAvailable` of the book that `find` returns, which
is `undefined` when no book has the id. -/
def booksReducer (state : State) (action : Action) : Option State :=
  match action with
  | .fetchBooksStart => some { state with isLoading := true, error := none }
  | .fetchBooksSuccess books userBooks =>
    some { state with
      books := books
      userBooks :=
        match userBooks with
        | some l => l
        | none => state.userBooks
      isLoading := false
      error := none }
  | .fetchBooksError payload => some { state with isLoading := false, error := some payload }
  | .addBookSuccess payload =>
    some { state with books := state.books ++ [payload], error := none }
  | .updateBookSuccess payload =>
    some { state with
      books := state.books.map fun book => if book.id == payload.id then payload else book
      userBooks := state.userBooks.map fun book =>
        if book.id == payload.id then spread book payload else book
      error := none }
  | .deleteBookSuccess payload =>
    some { state with
      books := state.books.filter fun book => book.id != some payload
      userBooks := state.userBooks.filter fun book => book.id != some payload
      error := none }
  | .borrowBookSuccess now payload =>
    match state.books.find? (fun book => book.id == some payload) with
    | none => none
    | some borrowedBook =>
      let updatedBookAfterBorrow : Book :=
        { borrowedBook with copiesAvailable := borrowedBook.copiesAvailable.pred }
      some { state with
        books := state.books.map fun book =>
          if book.id == some payload then updatedBookAfterBorrow else book
        userBooks :=
          state.userBooks ++ [{ borrowedBook with borrowedDate := some (toISOString now) }]
        error := none }
  | .returnBookSuccess payload =>
    match state.books.find? (fun book => book.id == some payload) with
    | none => none
    | some bookToReturn =>
      let updatedBookAfterReturn : Book :=
        { bookToReturn with copiesAvailable := bookToReturn.copiesAvailable.succ }
      some { state with
        books := state.books.map fun book =>
          if book.id == some payload then updatedBookAfterReturn else book
        userBooks := state.userBooks.filter fun book => book.id != some payload
        error := none }
  | .setError payload => some { state with error := some payload }
  | .clearError => some { state with error := none }

/-- The reducer state that shows the two lists of a server ledger. -/
def ofLedger (s : Server.Ledger) : State :=
  { books := s.books, userBooks := s.userBooks, isLoading := false, error := none }

end Dashboard

/-! ## The two end-to-end scenarios -/

/-- The record `{title:"X", author:"Y", ISBN:"123", publishedDate:"2099-01-01",
genre:"Academic", copiesAvailable:1}`. -/
def scenarioInvalid : Book :=
  { id := none, title := some "X".toList, author := some "Y".toList,
    ISBN := some "123".toList, publishedDate := some "2099-01-01".toList,
    genre := some "Academic".toList, copiesAvailable := .num 1, borrowedDate := none }

/-- The record `{title:"1984", author:"George Orwell", ISBN:"9780451524935",
publishedDate:"1949-06-08", genre:"Fiction", copiesAvailable:2}`. -/
def scenarioValid : Book :=
  { id := none, title := some "1984".toList, author := some "George Orwell".toList,
    ISBN := some "9780451524935".toList, publishedDate := some "1949-06-08".toList,
    genre := some "Fiction".toList, copiesAvailable := .num 2, borrowedDate := none }

/-! ## Calendar lemmas -/

/-- Facts about the decomposition of a day number used by `civilFromDays`. -/
theorem civil_decomp (s : Int) :
    ∃ era n100 n4 n1 doy : Int,
      s / 146097 = era ∧
      (if s % 146097 / 36524 < 4 then s % 146097 / 36524 else 3) = n100 ∧
      (s % 146097 - n100 * 36524) / 1461 = n4 ∧
      (if (s % 146097 - n100 * 36524) % 1461 / 365 < 4
        then (s % 146097 - n100 * 36524) % 1461 / 365 else 3) = n1 ∧
      (s % 146097 - n100 * 36524) % 1461 - n1 * 365 = doy ∧
      s = era * 146097 + n100 * 36524 + n4 * 1461 + n1 * 365 + doy ∧
      0 ≤ n100 ∧ n100 ≤ 3 ∧ 0 ≤ n4 ∧ n4 ≤ 24 ∧ 0 ≤ n1 ∧ n1 ≤ 3 ∧ 0 ≤ doy ∧ doy ≤ 365 ∧
      (doy = 365 → n1 = 3 ∧ (n4 = 24 → n100 = 3)) := by
  refine ⟨_, _, _, _, _, rfl, rfl, rfl, rfl, rfl, ?_⟩
  have h0 := Int.emod_nonneg s (by norm_num : (146097:Int) ≠ 0)
  have h0' := Int.emod_lt_of_pos s (by norm_num : (0:Int) < 146097)
  have hdiv := Int.ediv_add_emod s 146097
  generalize s % 146097 = r0 at *
  generalize s / 146097 = era at *
  have hn : ∃ n100, (if r0 / 36524 < 4 then r0 / 36524 else 3) = n100 ∧ 0 ≤ n100 ∧ n100 ≤ 3 ∧
      0 ≤ r0 - n100 * 36524 ∧ r0 - n100 * 36524 ≤ 36524 ∧
      (r0 - n100 * 36524 = 36524 → n100 = 3) := by
    refine ⟨_, rfl, ?_⟩
    split_ifs <;> omega
  obtain ⟨n100, hn100, hb1, hb2, hb3, hb4, hb5⟩ := hn
  rw [hn100]
  generalize hr1 : r0 - n100 * 36524 = r1 at *
  have h1 := Int.emod_nonneg r1 (by norm_num : (1461:Int) ≠ 0)
  have h1' := Int.emod_lt_of_pos r1 (by norm_num : (0:Int) < 1461)
  have hdiv1 := Int.ediv_add_emod r1 1461
  generalize r1 % 1461 = r2 at *
  generalize r1 / 1461 = n4 at *
  split_ifs <;> omega

/-- The day number of the date of a day number is that day number. -/
theorem daysFromCivil_civilFromDays (z : Int) :
    daysFromCivil (civilFromDays z).1 (civilFromDays z).2.1 (civilFromDays z).2.2 = z := by
  obtain ⟨era, n100, n4, n1, doy, e1, e2, e3, e4, e5, hs, b⟩ := civil_decomp (z + 719468)
  simp only [civilFromDays, daysFromCivil]
  simp only [e2, e3, e4, e5, e1]
  clear e1 e2 e3 e4 e5
  have hmp : 0 ≤ (5 * doy + 2) / 153 ∧ (5 * doy + 2) / 153 ≤ 11 := by omega
  have hd := Int.ediv_add_emod (5 * doy + 2) 153
  have hd1 := Int.emod_nonneg (5 * doy + 2) (by norm_num : (153:Int) ≠ 0)
  have hd2 := Int.emod_lt_of_pos (5 * doy + 2) (by norm_num : (0:Int) < 153)
  generalize (5 * doy + 2) % 153 = rem at *
  generalize hmpe : (5 * doy + 2) / 153 = mp at *
  split_ifs <;> omega

/-- The date of a day number exists in the calendar. -/
theorem validCivil_civilFromDays (z : Int) :
    validCivil (civilFromDays z).1 (civilFromDays z).2.1 (civilFromDays z).2.2 = true := by
  obtain ⟨era, n100, n4, n1, doy, e1, e2, e3, e4, e5, hs, b⟩ := civil_decomp (z + 719468)
  simp only [civilFromDays, validCivil, daysInMonth, isLeapYear, decide_eq_true_eq,
    Bool.decide_and, Bool.decide_or, Bool.and_eq_true, Bool.or_eq_true]
  simp only [e2, e3, e4, e5, e1]
  clear e1 e2 e3 e4 e5
  have hmp : 0 ≤ (5 * doy + 2) / 153 ∧ (5 * doy + 2) / 153 ≤ 11 := by omega
  have hd := Int.ediv_add_emod (5 * doy + 2) 153
  have hd1 := Int.emod_nonneg (5 * doy + 2) (by norm_num : (153:Int) ≠ 0)
  have hd2 := Int.emod_lt_of_pos (5 * doy + 2) (by norm_num : (0:Int) < 153)
  generalize (5 * doy + 2) % 153 = rem at *
  generalize hmpe : (5 * doy + 2) / 153 = mp at *
  obtain ⟨hmp0, hmp1⟩ := hmp
  interval_cases mp <;> simp <;> omega

/-- Within the range of time values the year has at most six digits. -/
theorem civilFromDays_year_bound (z : Int) (h1 : -100000000 ≤ z) (h2 : z ≤ 100000000) :
    -999999 ≤ (civilFromDays z).1 ∧ (civilFromDays z).1 ≤ 999999 := by
  obtain ⟨era, n100, n4, n1, doy, e1, e2, e3, e4, e5, hs, b⟩ := civil_decomp (z + 719468)
  simp only [civilFromDays]
  simp only [e2, e3, e4, e5, e1]
  split_ifs <;> omega

/-! ## Formatting and parsing lemmas -/

theorem digitVal_digitChar (n : Nat) : digitVal (digitChar n) = some (n % 10) := by
  have h : n % 10 < 10 := Nat.mod_lt _ (by norm_num)
  unfold digitChar
  generalize n % 10 = k at *
  interval_cases k <;> decide

theorem digitChar_ne (n : Nat) (c : Char) (hc : isDigit c = false) : digitChar n ≠ c := by
  intro h
  have := digitVal_digitChar n
  rw [h] at this
  simp [digitVal, hc] at this

theorem parseDigits_pad2 (n : Nat) (h : n < 100) : parseDigits (pad2 n) = some n := by
  simp only [parseDigits, pad2, parseDigitsFrom, digitVal_digitChar]
  congr 1; omega

theorem parseDigits_pad4 (n : Nat) (h : n < 10000) : parseDigits (pad4 n) = some n := by
  simp only [parseDigits, pad4, parseDigitsFrom, digitVal_digitChar]
  congr 1; omega

theorem parseDigits_pad6 (n : Nat) (h : n < 1000000) : parseDigits (pad6 n) = some n := by
  simp only [parseDigits, pad6, parseDigitsFrom, digitVal_digitChar]
  congr 1; omega

theorem parseYear_isoYear (y : Int) (rest : JsString) (h1 : -999999 ≤ y) (h2 : y ≤ 999999) :
    parseYear (isoYear y ++ rest) = some (y, rest) := by
  unfold isoYear
  split_ifs with hy hneg
  · have hp := parseDigits_pad4 y.toNat (by omega)
    have e1 : digitChar (y.toNat / 1000) ≠ '+' := digitChar_ne _ _ (by decide)
    have e2 : digitChar (y.toNat / 1000) ≠ '-' := digitChar_ne _ _ (by decide)
    simp only [pad4] at hp
    simp only [pad4, List.cons_append, List.nil_append, parseYear, e1, e2, if_false,
      parseUnsignedYear, hp, Option.map_some', Option.some.injEq, Prod.mk.injEq, and_true]
    omega
  · have hp := parseDigits_pad6 y.natAbs (by omega)
    have hne : ¬ (y.natAbs = 0) := by omega
    simp only [pad6] at hp
    simp only [pad6, List.cons_append, List.nil_append, parseYear, parseExpandedYear,
      show ('-' : Char) ≠ '+' by decide, if_false, if_true, hp, Option.some_bind, hne,
      Option.some.injEq, Prod.mk.injEq, and_true]
    omega
  · have hp := parseDigits_pad6 y.natAbs (by omega)
    simp only [pad6] at hp
    simp only [pad6, List.cons_append, List.nil_append, parseYear, parseExpandedYear,
      if_true, hp, Option.some_bind, Bool.false_eq_true, if_false, Option.some.injEq,
      Prod.mk.injEq, and_true]
    omega

theorem parseMonthDay_pad (m d : Nat) (hm : m < 100) (hd : d < 100) :
    parseMonthDay ('-' :: (pad2 m ++ ('-' :: pad2 d))) = some ((m : Int), (d : Int)) := by
  have h1 := parseDigits_pad2 m hm
  have h2 := parseDigits_pad2 d hd
  simp only [pad2, List.cons_append, List.nil_append, parseMonthDay] at h1 h2 ⊢
  simp [h1, h2]

theorem splitT0_toISOString (t : Int) : splitT0 (toISOString t) = isoDatePart t := by
  have hT : ∀ n, (digitChar n != 'T') = true := by
    intro n
    simp only [bne_iff_ne]
    exact digitChar_ne n _ (by decide)
  unfold splitT0 toISOString isoDatePart isoYear
  dsimp only
  split_ifs <;>
    simp [pad2, pad4, pad6, List.takeWhile, hT]

/-- Reading back the date part of `toISOString` gives midnight UTC of the same day. -/
theorem parseIsoDate_isoDatePart (t : Int) (h1 : -maxTime ≤ t) (h2 : t ≤ maxTime) :
    parseIsoDate (isoDatePart t) = some (t / msPerDay * msPerDay) := by
  have hz : -100000000 ≤ t / msPerDay ∧ t / msPerDay ≤ 100000000 := by
    simp only [maxTime, msPerDay] at *
    omega
  obtain ⟨hy1, hy2⟩ := civilFromDays_year_bound _ hz.1 hz.2
  have hv := validCivil_civilFromDays (t / msPerDay)
  have hr := daysFromCivil_civilFromDays (t / msPerDay)
  unfold parseIsoDate isoDatePart
  generalize civilFromDays (t / msPerDay) = c at *
  obtain ⟨y, m, d⟩ := c
  simp only at hy1 hy2 hv hr ⊢
  have hb : 1 ≤ m ∧ m ≤ 12 ∧ 1 ≤ d ∧ d ≤ 31 := by
    simp only [validCivil, daysInMonth, Bool.decide_and, Bool.and_eq_true,
      decide_eq_true_eq] at hv
    obtain ⟨a, b, c, e⟩ := hv
    refine ⟨a, b, c, ?_⟩
    split_ifs at e <;> omega
  rw [parseYear_isoYear y _ hy1 hy2]
  simp only [Option.some_bind]
  rw [parseMonthDay_pad _ _ (by omega) (by omega)]
  simp only [Option.some_bind]
  rw [Int.toNat_of_nonneg (by omega), Int.toNat_of_nonneg (by omega), hv, hr]
  simp

/-- `new Date(s)` of the date part of `toISOString` is a valid date, whatever the host. -/
theorem dateParse_isoDatePart (host : JsString → Option Int) (t : Int)
    (h1 : -maxTime ≤ t) (h2 : t ≤ maxTime) :
    dateParse host (isoDatePart t) = some (t / msPerDay * msPerDay) := by
  unfold dateParse
  rw [parseIsoDate_isoDatePart t h1 h2]
  simp only [Option.some_bind, timeClip]
  rw [if_pos]
  simp only [maxTime, msPerDay] at *
  omega

/-- A parsed date is within the range of time values. -/
theorem dateParse_range (host : JsString → Option Int) (s : JsString) (t : Int)
    (h : dateParse host s = some t) : -maxTime ≤ t ∧ t ≤ maxTime := by
  unfold dateParse at h
  generalize (match parseIsoDate s with | some t => some t | none => host s) = r at h
  cases r with
  | none => simp at h
  | some v =>
    simp only [Option.some_bind, timeClip] at h
    split_ifs at h with hv
    simp only [Option.some.injEq] at h
    omega

theorem isoDatePart_ne_nil (t : Int) : isoDatePart t ≠ [] := by
  unfold isoDatePart isoYear
  dsimp only
  split_ifs <;> simp [pad4]

/-! ## The ISBN pattern -/

theorem isDigit_iff (c : Char) : isDigit c = true ↔ c ∈ "0123456789".toList := by
  constructor
  · intro h
    simp only [isDigit, Bool.and_eq_true, decide_eq_true_eq] at h
    obtain ⟨h1, h2⟩ := h
    have h1' : 48 ≤ c.toNat := h1
    have h2' : c.toNat ≤ 57 := h2
    have hc : c = Char.ofNat c.toNat := (Char.ofNat_toNat c).symm
    generalize c.toNat = n at *
    subst hc
    interval_cases n <;> decide
  · intro h
    simp only [String.toList, List.mem_cons, List.mem_singleton] at h
    rcases h with h | h | h | h | h | h | h | h | h | h | h <;> first | (subst h; decide) | simp at h

theorem matchClasses_replicate (p : Char → Bool) (n : Nat) (s : JsString) :
    matchClasses (List.replicate n p) s = true ↔ s.length = n ∧ ∀ c ∈ s, p c = true := by
  induction n generalizing s with
  | zero => cases s <;> simp [matchClasses]
  | succ n ih =>
    cases s with
    | nil => simp [matchClasses, List.replicate]
    | cons c cs =>
      simp only [matchClasses, List.replicate, ih, Bool.and_eq_true, List.length_cons,
        List.mem_cons, forall_eq_or_imp, add_left_inj]
      tauto

theorem matchClasses_replicate_append (p q : Char → Bool) (n : Nat) (s : JsString) :
    matchClasses (List.replicate n p ++ [q]) s = true ↔
      s.length = n + 1 ∧ (∀ c ∈ s.take n, p c = true) ∧
        ∃ l, s.getLast? = some l ∧ q l = true := by
  induction n generalizing s with
  | zero =>
    rcases s with _ | ⟨c, _ | ⟨d, cs⟩⟩ <;> simp [matchClasses]
  | succ n ih =>
    have hrep : List.replicate (n + 1) p ++ [q] = p :: (List.replicate n p ++ [q]) := rfl
    rw [hrep]
    rcases s with _ | ⟨c, _ | ⟨d, ds⟩⟩
    · simp [matchClasses]
    · have h0 := ih []
      simp only [matchClasses, Bool.and_eq_true, h0]
      simp
    · simp only [matchClasses, Bool.and_eq_true, ih, List.length_cons, List.take_succ_cons,
        List.mem_cons, forall_eq_or_imp, List.getLast?_cons_cons, add_left_inj]
      tauto

/-- C2: `validateISBN` (server and client) accepts exactly the strings of 13 ASCII digits
and the strings of 10 characters whose first nine are ASCII digits and whose last is a
digit, `X` or `x`; every other string is rejected. -/
theorem validateISBN_iff_shape (s : JsString) :
    (Server.validateISBN s = true ↔
      (s.length = 13 ∧ ∀ c ∈ s, c ∈ "0123456789".toList) ∨
      (s.length = 10 ∧ (∀ c ∈ s.take 9, c ∈ "0123456789".toList) ∧
        ∃ l, s.getLast? = some l ∧ l ∈ "0123456789Xx".toList)) ∧
    (Validator.validateISBN s = Server.validateISBN s) := by
  refine ⟨?_, rfl⟩
  have hq : ∀ l : Char, isDigitOrX l = true ↔ l ∈ "0123456789Xx".toList := by
    intro l
    simp only [isDigitOrX, Bool.or_eq_true, isDigit_iff, decide_eq_true_eq]
    simp only [String.toList, List.mem_cons, List.mem_singleton, List.not_mem_nil, or_false]
    tauto
  simp only [Server.validateISBN, isbnPattern, Bool.or_eq_true, matchClasses_replicate,
    matchClasses_replicate_append, isDigit_iff, hq]
  exact or_comm

/-! ## The client validation engine -/

/-- The three outcomes of `normalizeDate`: empty for an absent, empty or unparseable
input, otherwise the date part of the parsed instant. -/
theorem normalizeDate_cases (host : JsString → Option Int) (dateStr : Option JsString) :
    (Validator.normalizeDate host dateStr = [] ∧
      (dateStr = none ∨ dateStr = some [] ∨ ∃ s, dateStr = some s ∧ dateParse host s = none)) ∨
    (∃ s t, dateStr = some s ∧ s ≠ [] ∧ dateParse host s = some t ∧
      Validator.normalizeDate host dateStr = isoDatePart t) := by
  rcases dateStr with _ | s
  · exact Or.inl ⟨rfl, Or.inl rfl⟩
  · rcases s with _ | ⟨c, cs⟩
    · exact Or.inl ⟨rfl, Or.inr (Or.inl rfl)⟩
    · cases hp : dateParse host (c :: cs) with
      | none =>
        left
        refine ⟨?_, Or.inr (Or.inr ⟨_, rfl, hp⟩)⟩
        simp [Validator.normalizeDate, truthy, hp]
      | some t =>
        right
        refine ⟨_, t, rfl, by simp, hp, ?_⟩
        simp [Validator.normalizeDate, truthy, hp, splitT0_toISOString]

theorem truthy_some (s : JsString) : truthy (some s) = true ↔ s ≠ [] := by
  cases s <;> simp [truthy]

/-- On a normalised date the client's date check is the comparison of midnight UTC of
that date with the clock. -/
theorem validatePublishedDate_isoDatePart (host : JsString → Option Int) (now t : Int)
    (h1 : -maxTime ≤ t) (h2 : t ≤ maxTime) :
    Validator.validatePublishedDate host now (isoDatePart t) = !isAfter (isoDatePart t) now := by
  simp only [Validator.validatePublishedDate, isAfter, dateParse_isoDatePart host t h1 h2,
    parseIsoDate_isoDatePart t h1 h2]
  by_cases h : t / msPerDay * msPerDay ≤ now
  · simp [h]
  · simp [h]; omega

/-! ## Number arithmetic -/

theorem ulp_small (fuel m : Nat) (h : m < 9007199254740992) : ulp fuel m = 1 := by
  cases fuel with
  | zero => rfl
  | succ k => simp [ulp, h]

theorem roundNat_small (m : Nat) (h : m < 9007199254740992) : roundNat m = m := by
  simp [roundNat, ulp_small _ m h, Nat.mod_one]

/-- Rounding keeps the sign: the Number value of a non-negative integer is non-negative. -/
theorem toDouble_nonneg (n : Int) (h : 0 ≤ n) : 0 ≤ toDouble n := by
  unfold toDouble
  rw [if_neg (by omega)]
  exact Int.ofNat_nonneg _

/-- An integer of magnitude below 2^53 is a double: rounding leaves it as it is. -/
theorem toDouble_exact (n : Int) (h : n.natAbs < 9007199254740992) : toDouble n = n := by
  unfold toDouble
  rw [roundNat_small _ h]
  split_ifs <;> omega

/-- The rounding at the first integers that are not doubles: above 2^53 the doubles are
the even integers, above 2^54 the multiples of 4, and a tie goes to the even significand. -/
theorem toDouble_examples :
    toDouble 9007199254740992 = 9007199254740992 ∧
    toDouble 9007199254740993 = 9007199254740992 ∧
    toDouble 9007199254740995 = 9007199254740996 ∧
    toDouble (-9007199254740993) = -9007199254740992 ∧
    toDouble 18014398509481985 = 18014398509481984 ∧
    toDouble 18014398509481987 = 18014398509481988 := by
  decide

theorem validateAcademicCopies_num (g : Option JsString) (c : Int) :
    Validator.validateAcademicCopies g (.num c) = false ↔ g = some "Academic".toList ∧ c < 5 := by
  unfold Validator.validateAcademicCopies
  generalize "Academic".toList = a
  by_cases hg : g = some a
  · subst hg
    simp [NumField.ge]
  · simp [hg]

theorem validateAcademicCopies_false (g : Option JsString) (x : NumField) :
    Validator.validateAcademicCopies g x = false ↔
      g = some "Academic".toList ∧ x.ge 5 = false := by
  unfold Validator.validateAcademicCopies
  generalize "Academic".toList = a
  by_cases hg : g = some a
  · subst hg
    simp
  · simp [hg]

/-- The comparison `x >= 5` is false exactly for an absent field, `NaN` and a number
below 5. -/
theorem ge_five_false (x : NumField) :
    x.ge 5 = false ↔ (x = .undefined ∨ x = .nan ∨ ∃ c, x = .num c ∧ c < 5) := by
  cases x with
  | undefined => simp [NumField.ge]
  | nan => simp [NumField.ge]
  | num n => simp [NumField.ge]

/-- C1 (amended): for every input record, the error list of the client's `validateBook`
is the concatenation, in this order, of the title, author, ISBN, published-date and
academic-copies messages, each present exactly under its condition; the academic-copies
message is present iff genre is "Academic" and `copiesAvailable >= 5` is false, that is
iff `copiesAvailable` is absent, `NaN` or a number below 5; `isValid` holds iff the list is
empty; `validatedData` is the sanitised record in both cases. -/
theorem validateBook_error_list (host : JsString → Option Int) (now : Int) (r : Book) :
    let res := Validator.validateBook host now r
    let date := Validator.normalizeDate host r.publishedDate
    res.errors =
        (if Validator.sanitizeString r.title = [] then ["Title is required".toList] else []) ++
        (if Validator.sanitizeString r.author = [] then ["Author is required".toList]
          else []) ++
        (if Validator.sanitizeString r.ISBN = [] then ["ISBN is required".toList]
          else if Validator.validateISBN (Validator.sanitizeString r.ISBN) = false then
            ["Invalid ISBN format (must be 10 or 13 digits)".toList]
          else []) ++
        (if date = [] then ["Published date is required".toList]
          else if isAfter date now = true then
            ["Published date cannot be in the future".toList]
          else []) ++
        (if r.genre = some "Academic".toList ∧ r.copiesAvailable.ge 5 = false then
            ["Academic books must have at least 5 copies available".toList]
          else []) ∧
      (r.copiesAvailable.ge 5 = false ↔
        (r.copiesAvailable = .undefined ∨ r.copiesAvailable = .nan ∨
          ∃ c, r.copiesAvailable = .num c ∧ c < 5)) ∧
      (date = [] ↔ (r.publishedDate = none ∨ r.publishedDate = some [] ∨
        ∃ s, r.publishedDate = some s ∧ dateParse host s = none)) ∧
      (date ≠ [] → ∃ d, parseIsoDate date = some d) ∧
      (res.isValid = true ↔ res.errors = []) ∧
      res.validatedData =
        { r with
          title := some (Validator.sanitizeString r.title)
          author := some (Validator.sanitizeString r.author)
          ISBN := some (Validator.sanitizeString r.ISBN)
          publishedDate := some date } := by
  intro res date
  have hdate : (date = [] ↔ (r.publishedDate = none ∨ r.publishedDate = some [] ∨
        ∃ s, r.publishedDate = some s ∧ dateParse host s = none)) ∧
      (date ≠ [] → ∃ d, parseIsoDate date = some d) ∧
      (date ≠ [] → Validator.validatePublishedDate host now date = !isAfter date now) := by
    rcases normalizeDate_cases host r.publishedDate with ⟨h0, hc⟩ | ⟨s, t, hs, hne, hp, hn⟩
    · exact ⟨⟨fun _ => hc, fun _ => h0⟩, fun h => absurd h0 h, fun h => absurd h0 h⟩
    · obtain ⟨b1, b2⟩ := dateParse_range host s t hp
      have hd : date = isoDatePart t := hn
      refine ⟨⟨fun h => absurd (hd ▸ h) (isoDatePart_ne_nil t), ?_⟩, ?_, ?_⟩
      · rintro (h | h | ⟨s', h, hp'⟩)
        · rw [hs] at h; cases h
        · rw [hs] at h; exact absurd (Option.some.inj h) hne
        · rw [hs] at h; cases h; rw [hp] at hp'; cases hp'
      · intro _; rw [hd]; exact ⟨_, parseIsoDate_isoDatePart t b1 b2⟩
      · intro _; rw [hd]; exact validatePublishedDate_isoDatePart host now t b1 b2
  obtain ⟨hd1, hd2, hd3⟩ := hdate
  refine ⟨?_, ge_five_false _, hd1, hd2, ?_, rfl⟩
  · show (Validator.validateBook host now r).errors = _
    have hE := validateAcademicCopies_false r.genre r.copiesAvailable
    have hT : ∀ s : JsString, (!truthy (some s)) = true ↔ s = [] := by
      intro s; cases s <;> simp [truthy]
    simp only [Validator.validateBook, hT, Bool.not_eq_true', hE]
    rw [show Validator.normalizeDate host r.publishedDate = date from rfl]
    have hD : date ≠ [] → (Validator.validatePublishedDate host now date = false ↔
        isAfter date now = true) := by
      intro h; rw [hd3 h]; simp
    clear hd1 hd2 hd3 hE
    clear_value date
    generalize Validator.sanitizeString r.title = t
    generalize Validator.sanitizeString r.author = a
    generalize Validator.sanitizeString r.ISBN = i
    generalize Validator.validateISBN i = vi
    generalize Validator.validatePublishedDate host now date = vd at *
    generalize isAfter date now = af at *
    generalize r.copiesAvailable.ge 5 = g5
    generalize "Title is required".toList = m1
    generalize "Author is required".toList = m2
    generalize "ISBN is required".toList = m3
    generalize "Invalid ISBN format (must be 10 or 13 digits)".toList = m4
    generalize "Published date is required".toList = m5
    generalize "Published date cannot be in the future".toList = m6
    generalize "Academic books must have at least 5 copies available".toList = m7
    generalize "Academic".toList = ac
    by_cases h1 : t = [] <;> by_cases h2 : a = [] <;> by_cases h3 : i = [] <;>
      by_cases h5 : date = [] <;> by_cases h7 : (r.genre = some ac ∧ g5 = false) <;>
      cases vi <;> cases vd <;> cases af <;>
      first
        | (have hh := hD h5; simp at hh; done)
        | simp only [h1, h2, h3, h5, h7, if_true, if_false, List.nil_append, List.append_nil,
            List.cons_append, List.append_assoc, Bool.false_eq_true, Bool.true_eq_false,
            and_self]
  · simp [res, Validator.validateBook]

/-- C1 (counterexample): for a record with genre "Academic" and no `copiesAvailable`, the
comparison `copiesAvailable < 5` is false, yet the client's `validateBook` returns the
academic-copies message and `isValid` false. -/
theorem academic_message_without_copies :
    Server.academicNoCopies.genre = some "Academic".toList ∧
    Server.academicNoCopies.copiesAvailable.lt 5 = false ∧
    (Validator.validateBook Server.noHost 1730000000000 Server.academicNoCopies).errors =
      ["Academic books must have at least 5 copies available".toList] ∧
    (Validator.validateBook Server.noHost 1730000000000 Server.academicNoCopies).isValid =
      false := by
  decide

/-! ## The ledger: borrow and return -/

/-- The first element satisfying `p` splits the list: `find?` returns it and `findIdx?`
returns its position. -/
theorem find_split {α : Type} (p : α → Bool) (l : List α) :
    (l.find? p = none ∧ l.findIdx? p = none ∧ ∀ x ∈ l, p x = false) ∨
    (∃ pre b post, l = pre ++ b :: post ∧ (∀ x ∈ pre, p x = false) ∧ p b = true ∧
      l.find? p = some b ∧ l.findIdx? p = some pre.length) := by
  induction l with
  | nil => left; simp
  | cons a l ih =>
    by_cases ha : p a = true
    · right
      exact ⟨[], a, l, rfl, by simp, ha, by simp [ha], by simp [List.findIdx?_cons, ha]⟩
    · have ha' : p a = false := by simpa using ha
      rcases ih with ⟨h1, h2, h3⟩ | ⟨pre, b, post, h1, h2, h3, h4, h5⟩
      · left
        refine ⟨by simp [ha', h1], ?_, ?_⟩
        · simp [List.findIdx?_cons, ha', List.findIdx?_succ, h2]
        · intro x hx
          rcases List.mem_cons.1 hx with rfl | hx
          · exact ha'
          · exact h3 x hx
      · right
        refine ⟨a :: pre, b, post, by simp [h1], ?_, h3, by simp [ha', h4], ?_⟩
        · intro x hx
          rcases List.mem_cons.1 hx with rfl | hx
          · exact ha'
          · exact h2 x hx
        · simp [List.findIdx?_cons, ha', List.findIdx?_succ, h5]

namespace Server

/-- C6 (amended): when the catalog book with the requested id (the one `books.find`
returns) has `copiesAvailable = n > 0`, borrow answers 200 with the loan; the loan is the
book as it was before the decrement plus `borrowedDate`; the book's `copiesAvailable`
becomes the Number `n - 1`, the double nearest to the integer `n - 1`, which is `n - 1`
itself whenever `n ≤ 2^53`; its other fields are unchanged; every other position of the
catalog is unchanged; and `userBooks` is the old list with the loan appended at the end. -/
theorem borrowBook_success (now : Int) (bookId : JsString) (s : Ledger) (book : Book)
    (n : Int) (hfind : s.books.find? (hasId bookId) = some book)
    (hn : book.copiesAvailable = .num n) (hpos : 0 < n) :
    let loan : Book := { book with borrowedDate := some (toISOString now) }
    let out := borrowBook now bookId s
    out.1 = { status := 200, body := .book loan } ∧
    loan.copiesAvailable = .num n ∧
    out.2.userBooks = s.userBooks ++ [loan] ∧
    (n ≤ 9007199254740992 → toDouble (n - 1) = n - 1) ∧
    ∃ i, i < s.books.length ∧ s.books[i]? = some book ∧
      out.2.books = s.books.set i { book with copiesAvailable := .num (toDouble (n - 1)) } ∧
      out.2.books.length = s.books.length ∧
      ∀ j, j ≠ i → out.2.books[j]? = s.books[j]? := by
  intro loan out
  have hle : book.copiesAvailable.le 0 = false := by
    rw [hn]; simp [NumField.le]; omega
  rcases find_split (hasId bookId) s.books with ⟨h1, _, _⟩ | ⟨pre, b, post, h1, h2, h3, h4, h5⟩
  · rw [h1] at hfind; cases hfind
  · rw [h4] at hfind
    cases hfind
    have hpred : book.copiesAvailable.pred = .num (toDouble (n - 1)) := by rw [hn]; rfl
    have hout : out = ({ status := 200, body := .book loan },
        { books := s.books.set pre.length
            { book with copiesAvailable := book.copiesAvailable.pred },
          userBooks := s.userBooks ++ [loan] }) := by
      simp only [out, borrowBook, h4, h5, hle, Bool.false_eq_true, if_false]
    rw [hout, hpred]
    refine ⟨rfl, hn, rfl, fun hs => toDouble_exact _ (by omega), pre.length, ?_, ?_, rfl,
      ?_, ?_⟩
    · rw [h1]; simp
    · rw [h1, List.getElem?_append_right (le_refl _)]; simp
    · simp
    · intro j hj
      simp only
      rw [List.getElem?_set_ne (Ne.symm hj)]

/-- C6 (counterexample): a Fiction book added with 9007199254740994 copies is accepted, a
borrow of it answers 200, and its `copiesAvailable` becomes 9007199254740992, which is not
9007199254740994 - 1. -/
theorem borrow_large_count_rounds :
    (handle noHost (.postBook 1730000000000 1730000000000 (fictionBody 9007199254740994))
      seed).1.status = 201 ∧
    (run noHost [.postBook 1730000000000 1730000000000 (fictionBody 9007199254740994)]
      seed).books.map (fun b => (b.id, b.copiesAvailable)) =
      [(some "1".toList, .num 3), (some "2".toList, .num 5), (some "3".toList, .num 2),
       (some "1730000000000".toList, .num 9007199254740994)] ∧
    (handle noHost (.borrowBook 1730000000001 "1730000000000".toList)
      (run noHost [.postBook 1730000000000 1730000000000 (fictionBody 9007199254740994)]
        seed)).1.status = 200 ∧
    (run noHost borrowLarge seed).books.map (fun b => (b.id, b.copiesAvailable)) =
      [(some "1".toList, .num 3), (some "2".toList, .num 5), (some "3".toList, .num 2),
       (some "1730000000000".toList, .num 9007199254740992)] ∧
    (9007199254740994 : Int) - 1 ≠ 9007199254740992 := by
  decide

/-- C7: borrow answers 404 exactly when no catalog book has the id, answers 400 exactly
when the book with that id (the one `books.find` returns) has `copiesAvailable <= 0`, and
in both cases `books` and `userBooks` are unchanged. -/
theorem borrowBook_failure (now : Int) (bookId : JsString) (s : Ledger) :
    let out := borrowBook now bookId s
    (out.1.status = 404 ↔ ∀ b ∈ s.books, b.id ≠ some bookId) ∧
    (out.1.status = 400 ↔
      ∃ b n, s.books.find? (hasId bookId) = some b ∧ b.copiesAvailable = .num n ∧ n ≤ 0) ∧
    (out.1.status = 404 ∨ out.1.status = 400 → out.2 = s) := by
  intro out
  rcases find_split (hasId bookId) s.books with ⟨h1, _, h3⟩ | ⟨pre, b, post, h1, h2, h3, h4, h5⟩
  · have hout : out.1.status = 404 ∧ out.2 = s := by
      simp only [out, borrowBook, h1, and_self]
    rw [hout.1]
    refine ⟨⟨fun _ b hb => ?_, fun _ => rfl⟩, ⟨fun h => absurd h (by decide), ?_⟩,
      fun _ => hout.2⟩
    · simpa [hasId] using h3 b hb
    · rintro ⟨b, n, hb, -⟩
      rw [h1] at hb; cases hb
  · have hmem : b ∈ s.books := by rw [h1]; simp
    have hid : b.id = some bookId := by simpa [hasId] using h3
    by_cases hle : b.copiesAvailable.le 0 = true
    · have hout : out.1.status = 400 ∧ out.2 = s := by
        simp only [out, borrowBook, h4, hle, if_true, and_self]
      rw [hout.1]
      refine ⟨⟨fun h => absurd h (by decide), fun h => absurd hid (h b hmem)⟩,
        ⟨fun _ => ?_, fun _ => rfl⟩, fun _ => hout.2⟩
      cases hc : b.copiesAvailable with
      | undefined => rw [hc] at hle; simp [NumField.le] at hle
      | nan => rw [hc] at hle; simp [NumField.le] at hle
      | num n =>
        rw [hc] at hle
        exact ⟨b, n, h4, hc, by simpa [NumField.le] using hle⟩
    · have hst : out.1.status = 200 := by
        simp only [out, borrowBook, h4, hle, Bool.false_eq_true, if_false]
      rw [hst]
      refine ⟨⟨fun h => absurd h (by decide), fun h => absurd hid (h b hmem)⟩,
        ⟨fun h => absurd h (by decide), ?_⟩, ?_⟩
      · rintro ⟨b', n, hb, hc, hn⟩
        rw [h4] at hb; cases hb
        exfalso
        apply hle
        rw [hc]; simpa [NumField.le] using hn
      · rintro (h | h) <;> exact absurd h (by decide)

/-- C8: return answers 404 exactly when `userBooks` holds no loan with the id, and then
`books` and `userBooks` are unchanged. -/
theorem returnBook_notBorrowed (bookId : JsString) (s : Ledger) :
    let out := returnBook bookId s
    (out.1.status = 404 ↔ ∀ b ∈ s.userBooks, b.id ≠ some bookId) ∧
    (out.1.status = 404 → out.2 = s) := by
  intro out
  rcases find_split (hasId bookId) s.userBooks with
    ⟨_, h2, h3⟩ | ⟨pre, b, post, h1, h2, h3, h4, h5⟩
  · have hout : out.1.status = 404 ∧ out.2 = s := by
      simp only [out, returnBook, h2, and_self]
    refine ⟨⟨fun _ b hb => ?_, fun _ => hout.1⟩, fun _ => hout.2⟩
    simpa [hasId] using h3 b hb
  · have hmem : b ∈ s.userBooks := by rw [h1]; simp
    have hid : b.id = some bookId := by simpa [hasId] using h3
    have hst : out.1.status = 200 := by
      simp only [out, returnBook, h5]
    rw [hst]
    exact ⟨⟨fun h => absurd h (by decide), fun h => absurd hid (h b hmem)⟩,
      fun h => absurd h (by decide)⟩

end Server

/-! ## Invariants of the catalog -/

theorem trim_trim (s : JsString) : trim (trim s) = trim s := by
  unfold trim
  have key : (List.rdropWhile isWhiteSpace (s.dropWhile isWhiteSpace)).dropWhile isWhiteSpace =
      List.rdropWhile isWhiteSpace (s.dropWhile isWhiteSpace) := by
    generalize hu : s.dropWhile isWhiteSpace = u
    cases u with
    | nil => simp
    | cons a u' =>
      have ha : isWhiteSpace a = false := by
        have := List.head_dropWhile_not isWhiteSpace s (by rw [hu]; simp)
        simpa [hu] using this
      have hpre : List.rdropWhile isWhiteSpace (a :: u') <+: a :: u' :=
        List.rdropWhile_prefix _ _
      have hne : List.rdropWhile isWhiteSpace (a :: u') ≠ [] := by
        rw [Ne, List.rdropWhile_eq_nil_iff]
        intro h
        have := h a (by simp)
        simp [ha] at this
      obtain ⟨t, ht⟩ := hpre
      cases hv : List.rdropWhile isWhiteSpace (a :: u') with
      | nil => exact absurd hv hne
      | cons b v' =>
        rw [hv] at ht
        simp only [List.cons_append, List.cons.injEq] at ht
        obtain ⟨rfl, _⟩ := ht
        simp [ha]
  rw [key, List.rdropWhile_idempotent]

namespace Server

theorem sanitizeString_some (s : JsString) : sanitizeString (some s) = trim s := by
  cases s with
  | nil => simp [sanitizeString, truthy, trim]
  | cons c cs => simp [sanitizeString, truthy]

theorem sanitizeString_sanitizeString (x : Option JsString) :
    sanitizeString (some (sanitizeString x)) = sanitizeString x := by
  cases x with
  | none => rfl
  | some s => rw [sanitizeString_some, sanitizeString_some, trim_trim]

/-- The server's `validateBook` accepts a record exactly when every rule holds. -/
theorem validateBook_isValid_iff (host : JsString → Option Int) (now : Int) (r : Book) :
    (validateBook host now r).isValid = true ↔
      sanitizeString r.title ≠ [] ∧ sanitizeString r.author ≠ [] ∧
      sanitizeString r.ISBN ≠ [] ∧ validateISBN (sanitizeString r.ISBN) = true ∧
      (∃ d, r.publishedDate = some d ∧ d ≠ [] ∧ validatePublishedDate host now d = true) ∧
      validateAcademicCopies r.genre r.copiesAvailable = true := by
  have hT : ∀ s : JsString, (!truthy (some s)) = true ↔ s = [] := by
    intro s; cases s <;> simp [truthy]
  simp only [validateBook, hT, Bool.not_eq_true']
  generalize sanitizeString r.title = t
  generalize sanitizeString r.author = a
  generalize sanitizeString r.ISBN = i
  generalize validateISBN i = vi
  generalize validateAcademicCopies r.genre r.copiesAvailable = va
  generalize "Title is required".toList = m1
  generalize "Author is required".toList = m2
  generalize "ISBN is required".toList = m3
  generalize "Invalid ISBN format (must be 10 or 13 digits)".toList = m4
  generalize "Published date is required".toList = m5
  generalize "Published date cannot be in the future".toList = m6
  generalize "Academic books must have at least 5 copies available".toList = m7
  cases hpd : r.publishedDate with
  | none =>
    by_cases h1 : t = [] <;> by_cases h2 : a = [] <;> by_cases h3 : i = [] <;>
      cases vi <;> cases va <;> simp [h1, h2, h3]
  | some d =>
    have hex : (∃ d', some d = some d' ∧ d' ≠ [] ∧ validatePublishedDate host now d' = true) ↔
        (d ≠ [] ∧ validatePublishedDate host now d = true) := by
      constructor
      · rintro ⟨d', h, h'⟩
        cases h
        exact h'
      · intro h
        exact ⟨d, rfl, h⟩
    rw [hex]
    dsimp only
    generalize validatePublishedDate host now d = vd
    by_cases h1 : t = [] <;> by_cases h2 : a = [] <;> by_cases h3 : i = [] <;>
      by_cases h5 : d = [] <;> cases vi <;> cases va <;> cases vd <;> simp [h1, h2, h3, h5]

theorem validateBook_validatedData (host : JsString → Option Int) (now : Int) (r : Book) :
    (validateBook host now r).validatedData =
      { r with title := some (sanitizeString r.title), author := some (sanitizeString r.author),
               ISBN := some (sanitizeString r.ISBN) } := rfl

end Server

namespace Server

/-- A property of records that accepted writes establish and that borrow and return keep
holds for every catalog book after a request, when it held before. -/
theorem handle_preserves (host : JsString → Option Int) (P : Book → Prop) (r : Request)
    (s : Ledger) (hr : WritesKeep host P r)
    (hb : ∀ book, P book → book.copiesAvailable.le 0 = false →
      P { book with copiesAvailable := book.copiesAvailable.pred })
    (hret : ∀ old, P old → P { old with copiesAvailable := old.copiesAvailable.succ })
    (hs : ∀ b ∈ s.books, P b) : ∀ b ∈ (handle host r s).2.books, P b := by
  cases r with
  | getBooks => exact hs
  | getUserBooks => exact hs
  | postBook now idNow body =>
    simp only [handle, postBook]
    by_cases hv : (validateBook host now body).isValid = true
    · simp only [hv, Bool.not_true, Bool.false_eq_true, if_false]
      intro b hb'
      rcases List.mem_append.1 hb' with h | h
      · exact hs b h
      · rw [List.mem_singleton.1 h]
        exact hr hv
    · simp only [hv, Bool.not_eq_true] at hv ⊢
      simp only [hv, Bool.not_false, if_true]
      exact hs
  | putBook now bookId body =>
    simp only [handle, putBook]
    rcases find_split (hasId bookId) s.books with
      ⟨h1, h2, _⟩ | ⟨pre, old, post, h1, h2, h3, h4, h5⟩
    · rw [h1, h2]
      exact hs
    · rw [h4, h5]
      dsimp only
      by_cases hv : (validateBook host now body).isValid = true
      · simp only [hv, Bool.not_true, Bool.false_eq_true, if_false]
        intro b hb'
        rcases List.mem_or_eq_of_mem_set hb' with h | h
        · exact hs b h
        · rw [h]
          exact hr old (hs old (by rw [h1]; simp)) hv
      · simp only [Bool.not_eq_true] at hv
        simp only [hv, Bool.not_false, if_true]
        exact hs
  | deleteBook bookId =>
    simp only [handle, deleteBook]
    have hf : ∀ b ∈ s.books.filter (fun book => book.id != some bookId), P b :=
      fun b hb' => hs b (List.mem_of_mem_filter hb')
    split_ifs <;> exact hf
  | borrowBook now bookId =>
    simp only [handle, borrowBook]
    rcases find_split (hasId bookId) s.books with
      ⟨h1, h2, _⟩ | ⟨pre, book, post, h1, h2, h3, h4, h5⟩
    · rw [h1]
      exact hs
    · rw [h4, h5]
      dsimp only
      by_cases hle : book.copiesAvailable.le 0 = true
      · simp only [hle, if_true]
        exact hs
      · simp only [Bool.not_eq_true] at hle
        simp only [hle, Bool.false_eq_true, if_false]
        intro b hb'
        rcases List.mem_or_eq_of_mem_set hb' with h | h
        · exact hs b h
        · rw [h]
          exact hb book (hs book (by rw [h1]; simp)) hle
  | returnBook bookId =>
    simp only [handle, returnBook]
    cases hu : s.userBooks.findIdx? (hasId bookId) with
    | none => exact hs
    | some k =>
      dsimp only
      rcases find_split (hasId bookId) s.books with
        ⟨h1, h2, _⟩ | ⟨pre, old, post, h1, h2, h3, h4, h5⟩
      · rw [h1, h2]
        exact hs
      · rw [h4, h5]
        dsimp only
        intro b hb'
        rcases List.mem_or_eq_of_mem_set hb' with h | h
        · exact hs b h
        · rw [h]
          exact hret old (hs old (by rw [h1]; simp))

/-- The same for a sequence of requests. -/
theorem run_preserves (host : JsString → Option Int) (P : Book → Prop) (rs : List Request)
    (s : Ledger) (hr : ∀ r ∈ rs, WritesKeep host P r)
    (hb : ∀ book, P book → book.copiesAvailable.le 0 = false →
      P { book with copiesAvailable := book.copiesAvailable.pred })
    (hret : ∀ old, P old → P { old with copiesAvailable := old.copiesAvailable.succ })
    (hs : ∀ b ∈ s.books, P b) : ∀ b ∈ (run host rs s).books, P b := by
  induction rs generalizing s with
  | nil => exact hs
  | cons r rs ih =>
    simp only [run, List.foldl_cons]
    exact ih _ (fun r' hr' => hr r' (List.mem_cons_of_mem _ hr'))
      (handle_preserves host P r s (hr r (List.mem_cons_self _ _)) hb hret hs)

theorem textRulesOk_of_valid (host : JsString → Option Int) (now : Int) (body old : Book)
    (id : Option JsString) (hv : (validateBook host now body).isValid = true) :
    TextRulesOk host { (validateBook host now body).validatedData with id := id } ∧
    TextRulesOk host { spread old (validateBook host now body).validatedData with id := id } := by
  obtain ⟨h1, h2, _, h4, ⟨d, hd, hne, hvd⟩, _⟩ := (validateBook_isValid_iff host now body).1 hv
  have hp : ∃ t, dateParse host d = some t := by
    unfold validatePublishedDate at hvd
    cases hdp : dateParse host d with
    | none => rw [hdp] at hvd; simp at hvd
    | some t => exact ⟨t, rfl⟩
  rw [validateBook_validatedData]
  refine ⟨⟨?_, ?_, ?_, d, hd, hne, hp⟩, ⟨?_, ?_, ?_, d, ?_, hne, hp⟩⟩
  · simpa only [sanitizeString_sanitizeString] using h1
  · simpa only [sanitizeString_sanitizeString] using h2
  · simpa only [sanitizeString_sanitizeString] using h4
  · simpa only [spread, Option.orElse, sanitizeString_sanitizeString] using h1
  · simpa only [spread, Option.orElse, sanitizeString_sanitizeString] using h2
  · simpa only [spread, Option.orElse, sanitizeString_sanitizeString] using h4
  · simp only [spread, hd, Option.orElse]

theorem textRulesOk_seed (host : JsString → Option Int) : ∀ b ∈ seed.books, TextRulesOk host b := by
  have hd : ∀ d : JsString, (∃ t, parseIsoDate d = some t ∧ timeClip t = some t) →
      ∃ t, dateParse host d = some t := by
    rintro d ⟨t, h1, h2⟩
    exact ⟨t, by simp [dateParse, h1, h2]⟩
  intro b hb
  simp only [seed, seedBooks, List.mem_cons, List.mem_singleton, List.not_mem_nil,
    or_false] at hb
  rcases hb with rfl | rfl | rfl
  · exact ⟨by decide, by decide, by decide, _, rfl, by decide, hd _ ⟨_, by rfl, by rfl⟩⟩
  · exact ⟨by decide, by decide, by decide, _, rfl, by decide, hd _ ⟨_, by rfl, by rfl⟩⟩
  · exact ⟨by decide, by decide, by decide, _, rfl, by decide, hd _ ⟨_, by rfl, by rfl⟩⟩

end Server

namespace Server

/-- C6 (witness): borrowing book `1` of the seed catalog, which has 3 copies. -/
theorem borrowBook_success_witness :
    seed.books.find? (hasId "1".toList) = some seedBook1 ∧
    seedBook1.copiesAvailable = .num 3 ∧ (0 : Int) < 3 ∧
    (borrowBook 0 "1".toList seed).1 =
      { status := 200,
        body := .book { seedBook1 with borrowedDate := some (toISOString 0) } } ∧
    (borrowBook 0 "1".toList seed).2.userBooks =
      seed.userBooks ++ [{ seedBook1 with borrowedDate := some (toISOString 0) }] ∧
    toDouble (3 - 1) = 3 - 1 :=
  have h := borrowBook_success 0 "1".toList seed seedBook1 3 (by decide) rfl (by decide)
  ⟨by decide, rfl, by decide, h.1, h.2.2.1, h.2.2.2.1 (by decide)⟩

/-- C3 (failing input): from the seed, two borrows of book `1` followed by one return leave
2 copies and no loan of book `1`, although the book started with 3 copies and no loan. -/
theorem copies_plus_loans_not_conserved :
    (seed.books.find? (hasId "1".toList)).map (fun b => b.copiesAvailable) = some (.num 3) ∧
    (seed.userBooks.filter (hasId "1".toList)).length = 0 ∧
    ((run noHost [.borrowBook 0 "1".toList, .borrowBook 1 "1".toList, .returnBook "1".toList]
        seed).books.find? (hasId "1".toList)).map (fun b => b.copiesAvailable) =
      some (.num 2) ∧
    ((run noHost [.borrowBook 0 "1".toList, .borrowBook 1 "1".toList, .returnBook "1".toList]
        seed).userBooks.filter (hasId "1".toList)).length = 0 := by
  decide

/-- C4 (failing input): in the state reached from the seed by one borrow of book `1`
(2 copies left, one loan held), a borrow of book `1` followed by a return restores the 2
copies but leaves an empty loan list instead of the one loan held before. -/
theorem borrow_return_drops_earlier_loan :
    ((run noHost [.borrowBook 0 "1".toList] seed).books.find? (hasId "1".toList)).map
      (fun b => b.copiesAvailable) = some (.num 2) ∧
    (run noHost [.borrowBook 0 "1".toList] seed).userBooks =
      [{ seedBook1 with borrowedDate := some (toISOString 0) }] ∧
    ((run noHost [.borrowBook 1 "1".toList, .returnBook "1".toList]
        (run noHost [.borrowBook 0 "1".toList] seed)).books.find? (hasId "1".toList)).map
      (fun b => b.copiesAvailable) = some (.num 2) ∧
    (run noHost [.borrowBook 1 "1".toList, .returnBook "1".toList]
        (run noHost [.borrowBook 0 "1".toList] seed)).userBooks = [] := by
  decide

/-- C5 (failing input): with two loans of book `1` held, a successful return of book `1`
leaves no loan of book `1` instead of one, while `copiesAvailable` grows by one only. -/
theorem returnBook_removes_every_loan :
    ((run noHost [.borrowBook 0 "1".toList, .borrowBook 1 "1".toList] seed).userBooks.filter
      (hasId "1".toList)).length = 2 ∧
    (returnBook "1".toList
      (run noHost [.borrowBook 0 "1".toList, .borrowBook 1 "1".toList] seed)).1.status = 200 ∧
    ((returnBook "1".toList
      (run noHost [.borrowBook 0 "1".toList, .borrowBook 1 "1".toList] seed)).2.userBooks.filter
      (hasId "1".toList)).length = 0 ∧
    ((run noHost [.borrowBook 0 "1".toList, .borrowBook 1 "1".toList] seed).books.find?
      (hasId "1".toList)).map (fun b => b.copiesAvailable) = some (.num 1) ∧
    ((returnBook "1".toList
      (run noHost [.borrowBook 0 "1".toList, .borrowBook 1 "1".toList] seed)).2.books.find?
      (hasId "1".toList)).map (fun b => b.copiesAvailable) = some (.num 2) := by
  decide

/-- C9 (counterexample): after one borrow of the seed's Academic book `2` the catalog
holds an Academic book with 4 copies, which the validation engine rejects. -/
theorem academic_minimum_lost_after_borrow :
    ∃ b ∈ (run noHost [.borrowBook 0 "2".toList] seed).books,
      b.genre = some "Academic".toList ∧ b.copiesAvailable = .num 4 ∧
      (validateBook noHost 1730000000000 b).isValid = false ∧
      (validateBook noHost 1730000000000 b).errors =
        ["Academic books must have at least 5 copies available".toList] :=
  ⟨{ seedBook2 with copiesAvailable := .num 4 }, by decide, by decide, rfl, by decide,
    by decide⟩

/-- C9 (amended): in every state reachable from the seed by any sequence of requests,
every catalog book satisfies the title, author and ISBN rules of the validation engine
and has a published date that is present and parses. -/
theorem catalog_text_rules (host : JsString → Option Int) (rs : List Request) :
    ∀ b ∈ (run host rs seed).books, TextRulesOk host b := by
  apply run_preserves host (TextRulesOk host) rs seed
  · intro r _
    cases r with
    | postBook now idNow body =>
      exact fun hv => (textRulesOk_of_valid host now body body _ hv).1
    | putBook now bookId body =>
      exact fun old _ hv => (textRulesOk_of_valid host now body old _ hv).2
    | _ => trivial
  · exact fun book h _ => h
  · exact fun old h => h
  · exact textRulesOk_seed host

/-- C10 (counterexample): an add request for a Fiction book with `copiesAvailable = -1`
is accepted, and the catalog then holds a book with a negative `copiesAvailable`. -/
theorem negative_copies_accepted :
    (handle noHost (.postBook 1730000000000 1730000000000 (fictionBody (-1))) seed).1.status =
      201 ∧
    (run noHost [.postBook 1730000000000 1730000000000 (fictionBody (-1))] seed).books.map
      (fun b => b.copiesAvailable) = [.num 3, .num 5, .num 2, .num (-1)] := by
  decide

/-- C10 (amended): in every state reachable from the seed by requests whose add and update
bodies carry a non-negative integer `copiesAvailable`, every catalog book's
`copiesAvailable` is a non-negative integer. -/
theorem copies_nonneg_of_nonneg_inputs (host : JsString → Option Int) (rs : List Request)
    (h : ∀ r ∈ rs, nonnegInput r = true) :
    ∀ b ∈ (run host rs seed).books, CopiesNonneg b := by
  apply run_preserves host CopiesNonneg rs seed
  · intro r hr
    have hn := h r hr
    cases r with
    | postBook now idNow body =>
      intro _
      simp only [nonnegInput] at hn
      rw [validateBook_validatedData]
      cases hc : body.copiesAvailable with
      | num n => rw [hc] at hn; exact ⟨n, rfl, by simpa using hn⟩
      | undefined => rw [hc] at hn; simp at hn
      | nan => rw [hc] at hn; simp at hn
    | putBook now bookId body =>
      intro old _ _
      simp only [nonnegInput] at hn
      rw [validateBook_validatedData]
      cases hc : body.copiesAvailable with
      | num n =>
        rw [hc] at hn
        exact ⟨n, by simp [spread, hc, NumField.orElse], by simpa using hn⟩
      | undefined => rw [hc] at hn; simp at hn
      | nan => rw [hc] at hn; simp at hn
    | _ => trivial
  · rintro book ⟨n, hn, h0⟩ hle
    rw [hn] at hle
    simp only [NumField.le, decide_eq_false_iff_not, not_le] at hle
    exact ⟨toDouble (n - 1), by simp [hn, NumField.pred], toDouble_nonneg _ (by omega)⟩
  · rintro old ⟨n, hn, h0⟩
    exact ⟨toDouble (n + 1), by simp [hn, NumField.succ], toDouble_nonneg _ (by omega)⟩
  · intro b hb
    simp only [seed, seedBooks, List.mem_cons, List.mem_singleton, List.not_mem_nil,
      or_false] at hb
    rcases hb with rfl | rfl | rfl
    · exact ⟨3, rfl, by decide⟩
    · exact ⟨5, rfl, by decide⟩
    · exact ⟨2, rfl, by decide⟩

/-- C10 (witness): an add with 0 copies followed by borrows that exhaust book `3`, which
is then held with 0 copies. -/
theorem copies_nonneg_of_nonneg_inputs_witness :
    (∀ r ∈ exhaustBook3, nonnegInput r = true) ∧
    { seedBook3 with copiesAvailable := .num 0 } ∈ (run noHost exhaustBook3 seed).books ∧
    CopiesNonneg { seedBook3 with copiesAvailable := .num 0 } :=
  ⟨by decide, by decide,
    copies_nonneg_of_nonneg_inputs noHost exhaustBook3 (by decide) _ (by decide)⟩

/-- C9 (witness): after one borrow of book `2` the catalog holds it with 4 copies, and it
still satisfies the title, author, ISBN and published-date rules. -/
theorem catalog_text_rules_witness :
    { seedBook2 with copiesAvailable := .num 4 } ∈
      (run noHost [.borrowBook 0 "2".toList] seed).books ∧
    TextRulesOk noHost { seedBook2 with copiesAvailable := .num 4 } :=
  ⟨by decide, catalog_text_rules noHost [.borrowBook 0 "2".toList] _ (by decide)⟩

end Server

/-! ## The error list of both validation engines -/

theorem mem_ite_singleton {α : Type} (p : Prop) [Decidable p] (a b : α) :
    a ∈ (if p then [b] else []) ↔ p ∧ a = b := by
  split_ifs with h <;> simp [h]

theorem mem_ite_ite_singleton {α : Type} (p q : Prop) [Decidable p] [Decidable q] (a b c : α) :
    a ∈ (if p then [b] else if q then [c] else []) ↔ (p ∧ a = b) ∨ (¬p ∧ q ∧ a = c) := by
  by_cases h : p <;> by_cases h' : q <;> simp [h, h']

namespace Validator

theorem clientSanitize_some (s : JsString) : sanitizeString (some s) = trim s := by
  cases s with
  | nil => simp [sanitizeString, truthy, trim]
  | cons c cs => simp [sanitizeString, truthy]

theorem clientSanitize_idem (x : Option JsString) :
    sanitizeString (some (sanitizeString x)) = sanitizeString x := by
  cases x with
  | none => rfl
  | some s => rw [clientSanitize_some, clientSanitize_some, trim_trim]

/-- The error list of the client's `validateBook`, rule by rule. -/
theorem clientErrors_eq (host : JsString → Option Int) (now : Int) (r : Book) :
    (validateBook host now r).errors =
      (if sanitizeString r.title = [] then ["Title is required".toList] else []) ++
      (if sanitizeString r.author = [] then ["Author is required".toList] else []) ++
      (if sanitizeString r.ISBN = [] then ["ISBN is required".toList]
        else if validateISBN (sanitizeString r.ISBN) = false then
          ["Invalid ISBN format (must be 10 or 13 digits)".toList]
        else []) ++
      (if normalizeDate host r.publishedDate = [] then ["Published date is required".toList]
        else if validatePublishedDate host now (normalizeDate host r.publishedDate) = false then
          ["Published date cannot be in the future".toList]
        else []) ++
      (if validateAcademicCopies r.genre r.copiesAvailable = false then
          ["Academic books must have at least 5 copies available".toList]
        else []) := by
  have hT : ∀ s : JsString, (!truthy (some s)) = true ↔ s = [] := by
    intro s; cases s <;> simp [truthy]
  simp only [validateBook, hT, Bool.not_eq_true']
  generalize sanitizeString r.title = t
  generalize sanitizeString r.author = a
  generalize sanitizeString r.ISBN = i
  generalize validateISBN i = vi
  generalize validatePublishedDate host now (normalizeDate host r.publishedDate) = vd
  generalize normalizeDate host r.publishedDate = date
  generalize validateAcademicCopies r.genre r.copiesAvailable = va
  generalize "Title is required".toList = m1
  generalize "Author is required".toList = m2
  generalize "ISBN is required".toList = m3
  generalize "Invalid ISBN format (must be 10 or 13 digits)".toList = m4
  generalize "Published date is required".toList = m5
  generalize "Published date cannot be in the future".toList = m6
  generalize "Academic books must have at least 5 copies available".toList = m7
  by_cases h1 : t = [] <;> by_cases h2 : a = [] <;> by_cases h3 : i = [] <;>
    by_cases h5 : date = [] <;> cases vi <;> cases vd <;> cases va <;>
    simp only [h1, h2, h3, h5, if_true, if_false, List.nil_append, List.append_nil,
      List.cons_append, List.append_assoc, Bool.false_eq_true, Bool.true_eq_false]

theorem clientIsValid_eq (host : JsString → Option Int) (now : Int) (r : Book) :
    (validateBook host now r).isValid = ((validateBook host now r).errors.length == 0) := rfl

theorem clientValidatedData_eq (host : JsString → Option Int) (now : Int) (r : Book) :
    (validateBook host now r).validatedData =
      { r with title := some (sanitizeString r.title), author := some (sanitizeString r.author),
               ISBN := some (sanitizeString r.ISBN),
               publishedDate := some (normalizeDate host r.publishedDate) } := rfl

end Validator

namespace Server

/-- The error list of the server's `validateBook`, rule by rule. -/
theorem serverErrors_eq (host : JsString → Option Int) (now : Int) (r : Book) :
    (validateBook host now r).errors =
      (if sanitizeString r.title = [] then ["Title is required".toList] else []) ++
      (if sanitizeString r.author = [] then ["Author is required".toList] else []) ++
      (if sanitizeString r.ISBN = [] then ["ISBN is required".toList]
        else if validateISBN (sanitizeString r.ISBN) = false then
          ["Invalid ISBN format (must be 10 or 13 digits)".toList]
        else []) ++
      (match r.publishedDate with
        | none => ["Published date is required".toList]
        | some d =>
          if d = [] then ["Published date is required".toList]
          else if validatePublishedDate host now d = false then
            ["Published date cannot be in the future".toList]
          else []) ++
      (if validateAcademicCopies r.genre r.copiesAvailable = false then
          ["Academic books must have at least 5 copies available".toList]
        else []) := by
  have hT : ∀ s : JsString, (!truthy (some s)) = true ↔ s = [] := by
    intro s; cases s <;> simp [truthy]
  simp only [validateBook, hT, Bool.not_eq_true']
  generalize sanitizeString r.title = t
  generalize sanitizeString r.author = a
  generalize sanitizeString r.ISBN = i
  generalize validateISBN i = vi
  generalize validateAcademicCopies r.genre r.copiesAvailable = va
  generalize "Title is required".toList = m1
  generalize "Author is required".toList = m2
  generalize "ISBN is required".toList = m3
  generalize "Invalid ISBN format (must be 10 or 13 digits)".toList = m4
  generalize "Published date is required".toList = m5
  generalize "Published date cannot be in the future".toList = m6
  generalize "Academic books must have at least 5 copies available".toList = m7
  cases r.publishedDate with
  | none =>
    by_cases h1 : t = [] <;> by_cases h2 : a = [] <;> by_cases h3 : i = [] <;>
      cases vi <;> cases va <;>
      simp only [h1, h2, h3, if_true, if_false, List.nil_append, List.append_nil,
        List.cons_append, List.append_assoc, Bool.false_eq_true, Bool.true_eq_false]
  | some d =>
    dsimp only
    generalize validatePublishedDate host now d = vd
    by_cases h1 : t = [] <;> by_cases h2 : a = [] <;> by_cases h3 : i = [] <;>
      by_cases h5 : d = [] <;> cases vi <;> cases vd <;> cases va <;>
      simp only [h1, h2, h3, h5, if_true, if_false, List.nil_append, List.append_nil,
        List.cons_append, List.append_assoc, Bool.false_eq_true, Bool.true_eq_false]

theorem serverIsValid_eq (host : JsString → Option Int) (now : Int) (r : Book) :
    (validateBook host now r).isValid = ((validateBook host now r).errors.length == 0) := rfl

end Server

/-! ## The academic-copies rule and the title rule -/

theorem academic_ne_messages :
    "Academic books must have at least 5 copies available".toList ≠ "Title is required".toList ∧
    "Academic books must have at least 5 copies available".toList ≠
      "Author is required".toList ∧
    "Academic books must have at least 5 copies available".toList ≠ "ISBN is required".toList ∧
    "Academic books must have at least 5 copies available".toList ≠
      "Invalid ISBN format (must be 10 or 13 digits)".toList ∧
    "Academic books must have at least 5 copies available".toList ≠
      "Published date is required".toList ∧
    "Academic books must have at least 5 copies available".toList ≠
      "Published date cannot be in the future".toList := by
  decide

/-- The academic-copies message is in the error list of either engine exactly when the
academic-copies check fails. -/
theorem academic_mem_errors (host : JsString → Option Int) (now : Int) (r : Book) :
    ("Academic books must have at least 5 copies available".toList ∈
        (Server.validateBook host now r).errors ↔
      Server.validateAcademicCopies r.genre r.copiesAvailable = false) ∧
    ("Academic books must have at least 5 copies available".toList ∈
        (Validator.validateBook host now r).errors ↔
      Validator.validateAcademicCopies r.genre r.copiesAvailable = false) := by
  obtain ⟨h1, h2, h3, h4, h5, h6⟩ := academic_ne_messages
  constructor
  · rw [Server.serverErrors_eq]
    cases r.publishedDate with
    | none =>
      simp only [List.mem_append, mem_ite_singleton, mem_ite_ite_singleton,
        List.mem_singleton, h1, h2, h3, h4, h5, h6, and_false, false_or, or_false, and_true]
    | some d =>
      simp only [List.mem_append, mem_ite_singleton, mem_ite_ite_singleton,
        List.mem_singleton, h1, h2, h3, h4, h5, h6, and_false, false_or, or_false, and_true]
  · rw [Validator.clientErrors_eq]
    simp only [List.mem_append, mem_ite_singleton, mem_ite_ite_singleton,
      List.mem_singleton, h1, h2, h3, h4, h5, h6, and_false, false_or, or_false, and_true]

/-- C13: for both `validateBook` implementations and every record with an integer
`copiesAvailable = c`, the message "Academic books must have at least 5 copies available"
is in the error list exactly when the genre is "Academic" and `c < 5`; for every other
genre, absent included, it is never produced. -/
theorem academic_message_iff (host : JsString → Option Int) (now : Int) (r : Book)
    (c : Int) :
    ("Academic books must have at least 5 copies available".toList ∈
        (Server.validateBook host now { r with copiesAvailable := .num c }).errors ↔
      r.genre = some "Academic".toList ∧ c < 5) ∧
    ("Academic books must have at least 5 copies available".toList ∈
        (Validator.validateBook host now { r with copiesAvailable := .num c }).errors ↔
      r.genre = some "Academic".toList ∧ c < 5) := by
  have h := academic_mem_errors host now { r with copiesAvailable := .num c }
  have hv := validateAcademicCopies_num r.genre c
  exact ⟨h.1.trans hv, h.2.trans hv⟩

theorem trim_eq_nil_of_white (s : JsString) (h : ∀ c ∈ s, isWhiteSpace c = true) :
    trim s = [] := by
  unfold trim
  rw [(List.dropWhile_eq_nil_iff).2 h]
  simp

/-- The title is absent, empty, or made of whitespace only. -/
theorem sanitizeString_blank (x : Option JsString)
    (h : x = none ∨ ∃ s, x = some s ∧ ∀ c ∈ s, isWhiteSpace c = true) :
    Server.sanitizeString x = [] ∧ Validator.sanitizeString x = [] := by
  rcases h with rfl | ⟨s, rfl, hs⟩
  · exact ⟨rfl, rfl⟩
  · rw [Server.sanitizeString_some, Validator.clientSanitize_some, trim_eq_nil_of_white s hs]
    exact ⟨rfl, rfl⟩

/-- C14: for both `validateBook` implementations, a record whose title is absent, empty or
whitespace only is invalid, whatever its other fields, and "Title is required" is the
first element of its error list. -/
theorem title_required_first (host : JsString → Option Int) (now : Int) (r : Book)
    (h : r.title = none ∨ ∃ s, r.title = some s ∧ ∀ c ∈ s, isWhiteSpace c = true) :
    (Server.validateBook host now r).isValid = false ∧
    (Server.validateBook host now r).errors.head? = some "Title is required".toList ∧
    (Validator.validateBook host now r).isValid = false ∧
    (Validator.validateBook host now r).errors.head? = some "Title is required".toList := by
  obtain ⟨hs, hc⟩ := sanitizeString_blank r.title h
  have e1 : ∃ rest, (Server.validateBook host now r).errors =
      "Title is required".toList :: rest := by
    rw [Server.serverErrors_eq, hs]
    simp only [if_true, List.append_assoc, List.singleton_append]
    exact ⟨_, rfl⟩
  have e2 : ∃ rest, (Validator.validateBook host now r).errors =
      "Title is required".toList :: rest := by
    rw [Validator.clientErrors_eq, hc]
    simp only [if_true, List.append_assoc, List.singleton_append]
    exact ⟨_, rfl⟩
  obtain ⟨r1, e1⟩ := e1
  obtain ⟨r2, e2⟩ := e2
  rw [Server.serverIsValid_eq, Validator.clientIsValid_eq, e1, e2]
  exact ⟨rfl, rfl, rfl, rfl⟩

/-- C14 (witness): a record whose title is three spaces. -/
theorem title_required_first_witness :
    ({ Server.fictionBody 1 with title := some "   ".toList }.title = none ∨
      ∃ s, { Server.fictionBody 1 with title := some "   ".toList }.title = some s ∧
        ∀ c ∈ s, isWhiteSpace c = true) ∧
    (Server.validateBook Server.noHost 1730000000000
      { Server.fictionBody 1 with title := some "   ".toList }).isValid = false ∧
    (Server.validateBook Server.noHost 1730000000000
      { Server.fictionBody 1 with title := some "   ".toList }).errors.head? =
        some "Title is required".toList :=
  have h := title_required_first Server.noHost 1730000000000
    { Server.fictionBody 1 with title := some "   ".toList }
    (Or.inr ⟨"   ".toList, rfl, by decide⟩)
  ⟨Or.inr ⟨"   ".toList, rfl, by decide⟩, h.1, h.2.1⟩

/-! ## The calendar: from a date to its day number and back -/

/-- A decomposition of a day number with the bounds of `civil_decomp` is the one that
`civilFromDays` computes. -/
theorem civil_unique (s era n100 n4 n1 doy : Int)
    (hs : s = era * 146097 + n100 * 36524 + n4 * 1461 + n1 * 365 + doy)
    (b1 : 0 ≤ n100) (b2 : n100 ≤ 3) (b3 : 0 ≤ n4) (b4 : n4 ≤ 24) (b5 : 0 ≤ n1) (b6 : n1 ≤ 3)
    (b7 : 0 ≤ doy) (b8 : doy ≤ 365) (b9 : doy = 365 → n1 = 3 ∧ (n4 = 24 → n100 = 3)) :
    s / 146097 = era ∧
    (if s % 146097 / 36524 < 4 then s % 146097 / 36524 else 3) = n100 ∧
    (s % 146097 - n100 * 36524) / 1461 = n4 ∧
    (if (s % 146097 - n100 * 36524) % 1461 / 365 < 4
      then (s % 146097 - n100 * 36524) % 1461 / 365 else 3) = n1 ∧
    (s % 146097 - n100 * 36524) % 1461 - n1 * 365 = doy := by
  have he : s / 146097 = era := by omega
  have hr : s % 146097 = n100 * 36524 + n4 * 1461 + n1 * 365 + doy := by omega
  rw [he, hr]
  have h100 : (if (n100 * 36524 + n4 * 1461 + n1 * 365 + doy) / 36524 < 4
      then (n100 * 36524 + n4 * 1461 + n1 * 365 + doy) / 36524 else 3) = n100 := by
    split_ifs <;> omega
  rw [h100]
  have hr1 : n100 * 36524 + n4 * 1461 + n1 * 365 + doy - n100 * 36524 =
      n4 * 1461 + n1 * 365 + doy := by omega
  rw [hr1]
  have h4 : (n4 * 1461 + n1 * 365 + doy) / 1461 = n4 := by omega
  have hr2 : (n4 * 1461 + n1 * 365 + doy) % 1461 = n1 * 365 + doy := by omega
  rw [h4, hr2]
  refine ⟨rfl, rfl, rfl, ?_, ?_⟩
  · split_ifs <;> omega
  · omega

/-- The date of the day number of a date that exists is that date. -/
theorem civilFromDays_daysFromCivil (y m d : Int) (hv : validCivil y m d = true) :
    civilFromDays (daysFromCivil y m d) = (y, m, d) := by
  simp only [validCivil, daysInMonth, isLeapYear, decide_eq_true_eq, Bool.decide_and,
    Bool.decide_or, Bool.and_eq_true, Bool.or_eq_true] at hv
  obtain ⟨hm1, hm2, hd1, hd2⟩ := hv
  -- the year counted from March, its era and its position in the era
  obtain ⟨y', hy'⟩ : ∃ y', y' = (if m ≤ 2 then y - 1 else y) := ⟨_, rfl⟩
  obtain ⟨mp, hmp⟩ : ∃ mp, mp = (if m > 2 then m - 3 else m + 9) := ⟨_, rfl⟩
  have hdoy : ∃ doy, doy = (153 * mp + 2) / 5 + d - 1 ∧ 0 ≤ doy ∧ doy ≤ 365 ∧
      (5 * doy + 2) / 153 = mp ∧ doy - (153 * mp + 2) / 5 + 1 = d ∧
      (doy = 365 → m = 2 ∧ d = 29) := by
    refine ⟨_, rfl, ?_⟩
    interval_cases m <;> simp at hmp <;> subst hmp <;> simp at hd2 <;>
      omega
  obtain ⟨doy, hdoy, c1, c2, c3, c4, c5⟩ := hdoy
  have hyoe := Int.emod_nonneg y' (by norm_num : (400 : Int) ≠ 0)
  have hyoe' := Int.emod_lt_of_pos y' (by norm_num : (0 : Int) < 400)
  have hdec := civil_unique (daysFromCivil y m d + 719468) (y' / 400) (y' % 400 / 100)
    (y' % 400 % 100 / 4) (y' % 400 % 4) doy
    (by simp only [daysFromCivil, ← hy', ← hmp, ← hdoy]; omega)
    (by omega) (by omega) (by omega) (by omega) (by omega) (by omega) c1 c2
    (by
      intro h365
      obtain ⟨hm, hd⟩ := c5 h365
      subst hm hd
      simp at hy' hd2
      split_ifs at hd2 with hl
      · omega
      · omega)
  obtain ⟨e1, e2, e3, e4, e5⟩ := hdec
  simp only [civilFromDays]
  simp only [e1, e2, e3, e4, e5, c3, c4]
  have hmm : (if mp < 10 then mp + 3 else mp - 9) = m := by
    rw [hmp]; split_ifs <;> omega
  rw [hmm]
  have hyy : y' / 400 * 400 + (y' % 400 / 100 * 100 + y' % 400 % 100 / 4 * 4 + y' % 400 % 4) +
      (if m ≤ 2 then 1 else 0) = y := by
    rw [hy']; split_ifs <;> omega
  rw [hyy]

/-! ## `normalizeDate` -/

theorem isoDatePart_dayStart (t : Int) :
    isoDatePart (t / msPerDay * msPerDay) = isoDatePart t := by
  unfold isoDatePart
  rw [Int.mul_ediv_cancel _ (by decide : msPerDay ≠ 0)]

theorem dayStart_range (t : Int) (h1 : -maxTime ≤ t) (h2 : t ≤ maxTime) :
    -maxTime ≤ t / msPerDay * msPerDay ∧ t / msPerDay * msPerDay ≤ maxTime := by
  simp only [maxTime, msPerDay] at *
  omega

/-- The date part of a valid instant is a fixed point of `normalizeDate`. -/
theorem normalizeDate_isoDatePart (host : JsString → Option Int) (t : Int)
    (h1 : -maxTime ≤ t) (h2 : t ≤ maxTime) :
    Validator.normalizeDate host (some (isoDatePart t)) = isoDatePart t := by
  have hne := isoDatePart_ne_nil t
  have ht : truthy (some (isoDatePart t)) = true := (truthy_some _).2 hne
  simp only [Validator.normalizeDate, ht, if_true, dateParse_isoDatePart host t h1 h2,
    splitT0_toISOString, isoDatePart_dayStart]

/-- C15: `normalizeDate` is idempotent: for every input (absent, empty, unparseable or
parseable text) and every host parser, normalising the normalised text gives the same
text. -/
theorem normalizeDate_idempotent (host : JsString → Option Int) (x : Option JsString) :
    Validator.normalizeDate host (some (Validator.normalizeDate host x)) =
      Validator.normalizeDate host x := by
  rcases normalizeDate_cases host x with ⟨h0, _⟩ | ⟨s, t, _, _, hp, hn⟩
  · rw [h0]; rfl
  · obtain ⟨b1, b2⟩ := dateParse_range host s t hp
    rw [hn]
    exact normalizeDate_isoDatePart host t b1 b2

theorem isDigit_digitChar (n : Nat) : isDigit (digitChar n) = true := by
  have h := digitVal_digitChar n
  unfold digitVal at h
  split_ifs at h with hd
  exact hd

theorem isoYear_of_small (y : Nat) (h : y ≤ 9999) : isoYear (y : Int) = pad4 y := by
  unfold isoYear
  rw [if_pos ⟨by omega, by omega⟩]
  simp

/-- The date part of `toISOString` has the four-digit shape for the years 0 to 9999 and
the expanded-year shape for every other year. -/
theorem isoDatePart_shape (t : Int) :
    (0 ≤ (civilFromDays (t / msPerDay)).1 ∧ (civilFromDays (t / msPerDay)).1 ≤ 9999 →
      isCanonicalDate (isoDatePart t) = true) ∧
    (¬ (0 ≤ (civilFromDays (t / msPerDay)).1 ∧ (civilFromDays (t / msPerDay)).1 ≤ 9999) →
      isExpandedDate (isoDatePart t) = true ∧ (isoDatePart t).length = 13) := by
  unfold isoDatePart isoYear
  dsimp only
  constructor
  · intro h
    rw [if_pos h]
    simp [isCanonicalDate, pad4, pad2, matchClasses, isDigit_digitChar, isHyphen]
  · intro h
    rw [if_neg h]
    split_ifs <;>
      simp [isExpandedDate, pad6, pad2, matchClasses, isDigit_digitChar, isHyphen, isSign]

theorem daysFromCivil_bound (y m d : Int) (hy0 : 0 ≤ y) (hy : y ≤ 9999)
    (hv : validCivil y m d = true) :
    -100000000 ≤ daysFromCivil y m d ∧ daysFromCivil y m d ≤ 100000000 := by
  simp only [validCivil, daysInMonth, Bool.decide_and, Bool.and_eq_true,
    decide_eq_true_eq] at hv
  obtain ⟨hm1, hm2, hd1, hd2⟩ := hv
  have hd31 : d ≤ 31 := by split_ifs at hd2 <;> omega
  simp only [daysFromCivil]
  split_ifs <;> omega

/-- Reading a date that exists, written `YYYY-MM-DD`, gives midnight UTC of that day. -/
theorem dateParse_ymd (host : JsString → Option Int) (y m d : Nat) (hy : y ≤ 9999)
    (hv : validCivil y m d = true) :
    dateParse host (ymd y m d) = some (daysFromCivil y m d * msPerDay) := by
  have hb : (m : Int) ≤ 12 ∧ (d : Int) ≤ 31 := by
    simp only [validCivil, daysInMonth, Bool.decide_and, Bool.and_eq_true,
      decide_eq_true_eq] at hv
    obtain ⟨_, hm2, _, hd2⟩ := hv
    refine ⟨hm2, ?_⟩
    split_ifs at hd2 <;> omega
  obtain ⟨r1, r2⟩ := daysFromCivil_bound y m d (by omega) (by omega) hv
  have hp : parseIsoDate (ymd y m d) = some (daysFromCivil y m d * msPerDay) := by
    unfold parseIsoDate ymd
    rw [← isoYear_of_small y hy, parseYear_isoYear _ _ (by omega) (by omega)]
    simp only [Option.some_bind]
    rw [parseMonthDay_pad _ _ (by omega) (by omega)]
    simp only [Option.some_bind, hv, if_true]
  unfold dateParse
  rw [hp]
  simp only [Option.some_bind, timeClip]
  rw [if_pos]
  simp only [maxTime, msPerDay]
  omega

theorem isoDatePart_ymd (y m d : Nat) (hy : y ≤ 9999) (hv : validCivil y m d = true) :
    isoDatePart (daysFromCivil y m d * msPerDay) = ymd y m d := by
  unfold isoDatePart
  rw [Int.mul_ediv_cancel _ (by decide : msPerDay ≠ 0), civilFromDays_daysFromCivil _ _ _ hv]
  simp only [isoYear_of_small y hy, Int.toNat_ofNat, ymd]

/-- A date that exists, written `YYYY-MM-DD`, is a fixed point of `normalizeDate`. -/
theorem normalizeDate_ymd (host : JsString → Option Int) (y m d : Nat) (hy : y ≤ 9999)
    (hv : validCivil y m d = true) :
    Validator.normalizeDate host (some (ymd y m d)) = ymd y m d := by
  have hne : ymd y m d ≠ [] := by simp [ymd, pad4]
  have ht : truthy (some (ymd y m d)) = true := (truthy_some _).2 hne
  simp only [Validator.normalizeDate, ht, if_true, dateParse_ymd host y m d hy hv,
    splitT0_toISOString, isoDatePart_ymd y m d hy hv]

/-- C16 (counterexample): the year 10000, written in the expanded ISO form, parses; its
normalised text has 13 characters and is not of the form `YYYY-MM-DD`. -/
theorem normalizeDate_year_10000 :
    Validator.normalizeDate Server.noHost (some "+010000-01-01".toList) =
      "+010000-01-01".toList ∧
    (Validator.normalizeDate Server.noHost (some "+010000-01-01".toList)).length = 13 ∧
    isCanonicalDate (Validator.normalizeDate Server.noHost (some "+010000-01-01".toList)) =
      false := by
  decide

/-- C16 (amended): `normalizeDate` returns the empty string exactly when the input is
absent, empty or not parseable; otherwise it returns the UTC calendar date of the parsed
instant, of the form `YYYY-MM-DD` when the year is between 0 and 9999 and of the 13
character form `±YYYYYY-MM-DD` for every other year; a date that exists, written
`YYYY-MM-DD`, is returned unchanged. -/
theorem normalizeDate_result (host : JsString → Option Int) (x : Option JsString) :
    (Validator.normalizeDate host x = [] ↔
      x = none ∨ x = some [] ∨ ∃ s, x = some s ∧ dateParse host s = none) ∧
    (∀ s t, x = some s → s ≠ [] → dateParse host s = some t →
      Validator.normalizeDate host x = isoDatePart t ∧
      (0 ≤ (civilFromDays (t / msPerDay)).1 ∧ (civilFromDays (t / msPerDay)).1 ≤ 9999 →
        isCanonicalDate (Validator.normalizeDate host x) = true) ∧
      (¬ (0 ≤ (civilFromDays (t / msPerDay)).1 ∧ (civilFromDays (t / msPerDay)).1 ≤ 9999) →
        isExpandedDate (Validator.normalizeDate host x) = true ∧
        (Validator.normalizeDate host x).length = 13)) ∧
    (∀ y m d : Nat, y ≤ 9999 → validCivil y m d = true →
      Validator.normalizeDate host (some (ymd y m d)) = ymd y m d) := by
  refine ⟨?_, ?_, fun y m d hy hv => normalizeDate_ymd host y m d hy hv⟩
  · rcases normalizeDate_cases host x with ⟨h0, hc⟩ | ⟨s, t, hs, hne, hp, hn⟩
    · exact ⟨fun _ => hc, fun _ => h0⟩
    · constructor
      · intro h
        rw [hn] at h
        exact absurd h (isoDatePart_ne_nil t)
      · rintro (h | h | ⟨s', h, hp'⟩)
        · rw [hs] at h; cases h
        · rw [hs] at h; exact absurd (Option.some.inj h) hne
        · rw [hs] at h; cases h; rw [hp] at hp'; cases hp'
  · intro s t hs hne hp
    have hn : Validator.normalizeDate host x = isoDatePart t := by
      rcases normalizeDate_cases host x with ⟨_, hc⟩ | ⟨s', t', hs', _, hp', hn'⟩
      · rcases hc with h | h | ⟨s', h, hp'⟩
        · rw [hs] at h; cases h
        · rw [hs] at h; exact absurd (Option.some.inj h) hne
        · rw [hs] at h; cases h; rw [hp] at hp'; cases hp'
      · rw [hs] at hs'; cases hs'; rw [hp] at hp'; cases hp'; exact hn'
    rw [hn]
    exact ⟨rfl, (isoDatePart_shape t).1, (isoDatePart_shape t).2⟩

/-- C16 (witness): the leap day 2024-02-29 is returned unchanged. -/
theorem normalizeDate_result_witness :
    (2024 : Nat) ≤ 9999 ∧ validCivil 2024 2 29 = true ∧
    Validator.normalizeDate Server.noHost (some (ymd 2024 2 29)) = ymd 2024 2 29 ∧
    ymd 2024 2 29 = "2024-02-29".toList :=
  ⟨by decide, by decide,
    (normalizeDate_result Server.noHost none).2.2 2024 2 29 (by decide) (by decide),
    by decide⟩

/-! ## `validatePublishedDate` -/

/-- C17 (counterexample): at 2024-11-05 20:00 UTC a clock nine hours ahead of UTC shows
2024-11-06, yet that date is rejected; at 2024-11-06 01:00 UTC a clock five hours behind
UTC shows 2024-11-05, yet the next day's date 2024-11-06 is accepted. -/
theorem local_today_rejected_tomorrow_accepted :
    localDate 540 1730836800000 = "2024-11-06".toList ∧
    Validator.validatePublishedDate Server.noHost 1730836800000 "2024-11-06".toList = false ∧
    Server.validatePublishedDate Server.noHost 1730836800000 "2024-11-06".toList = false ∧
    localDate (-300) 1730854800000 = "2024-11-05".toList ∧
    localDate (-300) (1730854800000 + msPerDay) = "2024-11-06".toList ∧
    Validator.validatePublishedDate Server.noHost 1730854800000 "2024-11-06".toList = true ∧
    Server.validatePublishedDate Server.noHost 1730854800000 "2024-11-06".toList = true := by
  decide

/-- C17 (amended): for every normalised date (the date part of an instant `d`) and every
current instant, `validatePublishedDate` (client and server) is true exactly when the date
is not later than the current calendar date in UTC, whatever the zone of the machine; at
that granularity today's UTC date is always accepted and tomorrow's UTC date is always
rejected, regardless of the time of day. -/
theorem validatePublishedDate_utc_day (host : JsString → Option Int) (now d : Int)
    (hd1 : -maxTime ≤ d) (hd2 : d ≤ maxTime) (hn1 : -maxTime ≤ now)
    (hn2 : now + msPerDay ≤ maxTime) :
    (Validator.validatePublishedDate host now (isoDatePart d) = true ↔
      d / msPerDay ≤ now / msPerDay) ∧
    (Server.validatePublishedDate host now (isoDatePart d) = true ↔
      d / msPerDay ≤ now / msPerDay) ∧
    Validator.validatePublishedDate host now (localDate 0 now) = true ∧
    Server.validatePublishedDate host now (localDate 0 now) = true ∧
    Validator.validatePublishedDate host now (localDate 0 (now + msPerDay)) = false ∧
    Server.validatePublishedDate host now (localDate 0 (now + msPerDay)) = false := by
  have key : ∀ t : Int, -maxTime ≤ t → t ≤ maxTime →
      (Validator.validatePublishedDate host now (isoDatePart t) = true ↔
        t / msPerDay ≤ now / msPerDay) ∧
      (Server.validatePublishedDate host now (isoDatePart t) = true ↔
        t / msPerDay ≤ now / msPerDay) := by
    intro t h1 h2
    have e : t / msPerDay * msPerDay ≤ now ↔ t / msPerDay ≤ now / msPerDay := by
      simp only [msPerDay]; omega
    simp only [Validator.validatePublishedDate, Server.validatePublishedDate,
      dateParse_isoDatePart host t h1 h2, decide_eq_true_eq, e, and_self]
  have hms : msPerDay = 86400000 := rfl
  have k0 := key now hn1 (by omega)
  have k1 := key (now + msPerDay) (by omega) hn2
  have t0 : localDate 0 now = isoDatePart now := by simp [localDate]
  have t1 : localDate 0 (now + msPerDay) = isoDatePart (now + msPerDay) := by simp [localDate]
  have hlt : ¬ ((now + msPerDay) / msPerDay ≤ now / msPerDay) := by
    simp only [msPerDay]; omega
  rw [t0, t1]
  refine ⟨(key d hd1 hd2).1, (key d hd1 hd2).2, k0.1.2 le_rfl, k0.2.2 le_rfl, ?_, ?_⟩
  · cases h : Validator.validatePublishedDate host now (isoDatePart (now + msPerDay)) with
    | false => rfl
    | true => exact absurd (k1.1.1 h) hlt
  · cases h : Server.validatePublishedDate host now (isoDatePart (now + msPerDay)) with
    | false => rfl
    | true => exact absurd (k1.2.1 h) hlt

/-- C17 (witness): the date 2024-11-05 checked at 2024-11-05 20:00 UTC. -/
theorem validatePublishedDate_utc_day_witness :
    (-maxTime ≤ (1730764800000 : Int) ∧ (1730764800000 : Int) ≤ maxTime ∧
      -maxTime ≤ (1730836800000 : Int) ∧ (1730836800000 : Int) + msPerDay ≤ maxTime) ∧
    isoDatePart 1730764800000 = "2024-11-05".toList ∧
    Validator.validatePublishedDate Server.noHost 1730836800000 (isoDatePart 1730764800000) =
      true ∧
    Validator.validatePublishedDate Server.noHost 1730836800000
      (localDate 0 (1730836800000 + msPerDay)) = false :=
  have h := validatePublishedDate_utc_day Server.noHost 1730836800000 1730764800000
    (by decide) (by decide) (by decide) (by decide)
  ⟨by decide, by decide, h.1.2 (by decide), h.2.2.2.2.1⟩

/-! ## `sanitizeString` -/

theorem rdropWhile_append_rtakeWhile {α : Type} (p : α → Bool) (l : List α) :
    l.rdropWhile p ++ l.rtakeWhile p = l := by
  unfold List.rdropWhile List.rtakeWhile
  rw [← List.reverse_append, List.takeWhile_append_dropWhile, List.reverse_reverse]

/-- The builtin `trim` removes a run of whitespace at each end and nothing else: what is
left neither starts nor ends with whitespace. -/
theorem trim_spec (s : JsString) :
    ∃ pre post, s = pre ++ trim s ++ post ∧
      (∀ c ∈ pre, isWhiteSpace c = true) ∧ (∀ c ∈ post, isWhiteSpace c = true) ∧
      (∀ c, (trim s).head? = some c → isWhiteSpace c = false) ∧
      (∀ c, (trim s).getLast? = some c → isWhiteSpace c = false) := by
  refine ⟨s.takeWhile isWhiteSpace, (s.dropWhile isWhiteSpace).rtakeWhile isWhiteSpace,
    ?_, fun c hc => List.mem_takeWhile_imp hc, fun c hc => List.mem_rtakeWhile_imp hc, ?_, ?_⟩
  · unfold trim
    rw [List.append_assoc, rdropWhile_append_rtakeWhile, List.takeWhile_append_dropWhile]
  · intro c hc
    unfold trim at hc
    obtain ⟨t, ht⟩ : List.rdropWhile isWhiteSpace (s.dropWhile isWhiteSpace) <+:
        s.dropWhile isWhiteSpace := List.rdropWhile_prefix _ _
    cases hv : List.rdropWhile isWhiteSpace (s.dropWhile isWhiteSpace) with
    | nil => rw [hv] at hc; simp at hc
    | cons b v =>
      rw [hv] at hc ht
      simp only [List.head?_cons, Option.some.injEq] at hc
      subst hc
      have hh := List.head?_dropWhile_not isWhiteSpace s
      rw [← ht] at hh
      simpa using hh
  · intro c hc
    unfold trim at hc
    by_cases hne : List.rdropWhile isWhiteSpace (s.dropWhile isWhiteSpace) = []
    · rw [hne] at hc; simp at hc
    · have hl := List.rdropWhile_last_not isWhiteSpace (s.dropWhile isWhiteSpace) hne
      rw [List.getLast?_eq_getLast _ hne] at hc
      simp only [Option.some.injEq] at hc
      rw [hc] at hl
      simpa using hl

/-- C18: `sanitizeString` (server and client) returns the string with its leading and
trailing whitespace removed and every other character unchanged; it returns the empty
string for an absent or empty input; and it is idempotent. -/
theorem sanitizeString_spec (s : JsString) (x : Option JsString) :
    (∃ pre post, s = pre ++ Server.sanitizeString (some s) ++ post ∧
      (∀ c ∈ pre, isWhiteSpace c = true) ∧ (∀ c ∈ post, isWhiteSpace c = true) ∧
      (∀ c, (Server.sanitizeString (some s)).head? = some c → isWhiteSpace c = false) ∧
      (∀ c, (Server.sanitizeString (some s)).getLast? = some c → isWhiteSpace c = false)) ∧
    Server.sanitizeString none = [] ∧ Server.sanitizeString (some []) = [] ∧
    Server.sanitizeString (some (Server.sanitizeString x)) = Server.sanitizeString x ∧
    Validator.sanitizeString x = Server.sanitizeString x := by
  refine ⟨?_, rfl, rfl, Server.sanitizeString_sanitizeString x, rfl⟩
  rw [Server.sanitizeString_some]
  exact trim_spec s

/-! ## Server and client engines compared -/

/-- C11 (counterexample): for the published date "2020" both engines accept the record but
return different `validatedData` (the client normalises the date to "2020-01-01", the
server keeps "2020"); for the unparseable date "soon" the error lists differ. -/
theorem server_client_differ :
    (Server.validateBook Server.noHost 1730000000000
      { Server.fictionBody 1 with publishedDate := some "2020".toList }).isValid = true ∧
    (Validator.validateBook Server.noHost 1730000000000
      { Server.fictionBody 1 with publishedDate := some "2020".toList }).isValid = true ∧
    (Server.validateBook Server.noHost 1730000000000
      { Server.fictionBody 1 with publishedDate := some "2020".toList }).validatedData.publishedDate
      = some "2020".toList ∧
    (Validator.validateBook Server.noHost 1730000000000
      { Server.fictionBody 1 with publishedDate := some "2020".toList }).validatedData.publishedDate
      = some "2020-01-01".toList ∧
    (Server.validateBook Server.noHost 1730000000000
      { Server.fictionBody 1 with publishedDate := some "soon".toList }).errors =
      ["Published date cannot be in the future".toList] ∧
    (Validator.validateBook Server.noHost 1730000000000
      { Server.fictionBody 1 with publishedDate := some "soon".toList }).errors =
      ["Published date is required".toList] := by
  decide

/-- C11 (amended): the server's `validateBook` is the client's without the normalisation
of `publishedDate`: for every record whose `publishedDate` is present and equal to its own
normalised form (the empty string included), every current instant and every host
parser, the two return the same `isValid`, the same ordered error list and the same
`validatedData`. -/
theorem validateBook_agree_on_normalised (host : JsString → Option Int) (now : Int)
    (r : Book) (h : r.publishedDate = some (Validator.normalizeDate host r.publishedDate)) :
    (Server.validateBook host now r).isValid = (Validator.validateBook host now r).isValid ∧
    (Server.validateBook host now r).errors = (Validator.validateBook host now r).errors ∧
    (Server.validateBook host now r).validatedData =
      (Validator.validateBook host now r).validatedData := by
  have he : (Server.validateBook host now r).errors =
      (Validator.validateBook host now r).errors := by
    rw [Server.serverErrors_eq, Validator.clientErrors_eq]
    generalize Validator.normalizeDate host r.publishedDate = nd at h
    rw [h]
    rfl
  refine ⟨?_, he, ?_⟩
  · rw [Server.serverIsValid_eq, Validator.clientIsValid_eq, he]
  · rw [Server.validateBook_validatedData, Validator.clientValidatedData_eq, ← h]
    rfl

/-- C11 (witness): a record whose published date "2020-01-01" is already normalised. -/
theorem validateBook_agree_on_normalised_witness :
    (Server.fictionBody 1).publishedDate =
      some (Validator.normalizeDate Server.noHost (Server.fictionBody 1).publishedDate) ∧
    (Server.validateBook Server.noHost 1730000000000 (Server.fictionBody 1)).errors =
      (Validator.validateBook Server.noHost 1730000000000 (Server.fictionBody 1)).errors ∧
    (Server.validateBook Server.noHost 1730000000000 (Server.fictionBody 1)).validatedData =
      (Validator.validateBook Server.noHost 1730000000000 (Server.fictionBody 1)).validatedData :=
  have h := validateBook_agree_on_normalised Server.noHost 1730000000000 (Server.fictionBody 1)
    (by decide)
  ⟨by decide, h.2.1, h.2.2⟩

/-- C19 (counterexample): for a record without `copiesAvailable` both engines return a
`validatedData` whose `copiesAvailable` is still absent, not the number 0. -/
theorem copies_not_coerced :
    (Server.validateBook Server.noHost 1730000000000
      { Server.fictionBody 1 with copiesAvailable := .undefined }).validatedData.copiesAvailable
      = .undefined ∧
    (Validator.validateBook Server.noHost 1730000000000
      { Server.fictionBody 1 with copiesAvailable := .undefined }).validatedData.copiesAvailable
      = .undefined ∧
    NumField.undefined ≠ NumField.num 0 := by
  decide

/-- C19 (amended): both engines pass `genre` and `copiesAvailable` through unmodified,
whatever they are (an absent `copiesAvailable` stays absent), and evaluate the
academic-copies rule on the value as given: with `copiesAvailable` absent the message is
produced exactly when the genre is "Academic". -/
theorem copies_and_genre_pass_through (host : JsString → Option Int) (now : Int) (r : Book) :
    (Server.validateBook host now r).validatedData.copiesAvailable = r.copiesAvailable ∧
    (Server.validateBook host now r).validatedData.genre = r.genre ∧
    (Validator.validateBook host now r).validatedData.copiesAvailable = r.copiesAvailable ∧
    (Validator.validateBook host now r).validatedData.genre = r.genre ∧
    ("Academic books must have at least 5 copies available".toList ∈
        (Server.validateBook host now { r with copiesAvailable := .undefined }).errors ↔
      r.genre = some "Academic".toList) ∧
    ("Academic books must have at least 5 copies available".toList ∈
        (Validator.validateBook host now { r with copiesAvailable := .undefined }).errors ↔
      r.genre = some "Academic".toList) := by
  have h := academic_mem_errors host now { r with copiesAvailable := .undefined }
  have hv : Validator.validateAcademicCopies r.genre .undefined = false ↔
      r.genre = some "Academic".toList := by
    unfold Validator.validateAcademicCopies
    generalize "Academic".toList = a
    by_cases hg : r.genre = some a
    · rw [hg]; simp [NumField.ge]
    · simp [hg]
  exact ⟨rfl, rfl, rfl, rfl, h.1.trans hv, h.2.trans hv⟩

/-! ## The ledger: add and update -/

namespace Server

/-- The answer and the new state of an accepted add. -/
theorem postBook_valid (host : JsString → Option Int) (now idNow : Int) (body : Book)
    (s : Ledger) (hv : (validateBook host now body).isValid = true) :
    postBook host now idNow body s =
      ({ status := 201,
         body := .book { (validateBook host now body).validatedData with
                         id := some (numberToString idNow) } },
       { s with books := s.books ++ [{ (validateBook host now body).validatedData with
                                       id := some (numberToString idNow) }] }) := by
  simp only [postBook, hv, Bool.not_true, Bool.false_eq_true, if_false]

/-- The answer and the state of a refused add. -/
theorem postBook_invalid (host : JsString → Option Int) (now idNow : Int) (body : Book)
    (s : Ledger) (hv : (validateBook host now body).isValid = false) :
    postBook host now idNow body s =
      ({ status := 400, body := .errors (validateBook host now body).errors }, s) := by
  simp only [postBook, hv, Bool.not_false, if_true]

/-- The three outcomes of an update. -/
theorem putBook_cases (host : JsString → Option Int) (now : Int) (bookId : JsString)
    (body : Book) (s : Ledger) :
    ((∀ b ∈ s.books, hasId bookId b = false) ∧
      putBook host now bookId body s =
        ({ status := 404, body := .errors [notFoundMessage bookId] }, s)) ∨
    (∃ pre old post, s.books = pre ++ old :: post ∧ (∀ b ∈ pre, hasId bookId b = false) ∧
      hasId bookId old = true ∧ s.books.find? (hasId bookId) = some old ∧
      ((validateBook host now body).isValid = false ∧
        putBook host now bookId body s =
          ({ status := 400, body := .errors (validateBook host now body).errors }, s) ∨
       (validateBook host now body).isValid = true ∧
        putBook host now bookId body s =
          ({ status := 200,
             body := .book { spread old (validateBook host now body).validatedData with
                             id := some bookId } },
           { s with books := pre ++
               { spread old (validateBook host now body).validatedData with
                 id := some bookId } :: post }))) := by
  rcases find_split (hasId bookId) s.books with
    ⟨h1, h2, h3⟩ | ⟨pre, old, post, h1, h2, h3, h4, h5⟩
  · left
    refine ⟨h3, ?_⟩
    simp only [putBook, h1, h2]
  · right
    refine ⟨pre, old, post, h1, h2, h3, h4, ?_⟩
    cases hv : (validateBook host now body).isValid with
    | false =>
      left
      refine ⟨rfl, ?_⟩
      simp only [putBook, h4, h5, hv, Bool.not_false, if_true]
    | true =>
      right
      refine ⟨rfl, ?_⟩
      simp only [putBook, h4, h5, hv, Bool.not_true, Bool.false_eq_true, if_false]
      rw [h1, List.set_append_right _ _ (le_refl _)]
      simp

/-- An accepted record has a published date that is present, non-empty and passes the
date check, and it reaches `validatedData` unchanged. -/
theorem valid_publishedDate (host : JsString → Option Int) (now : Int) (body : Book)
    (hv : (validateBook host now body).isValid = true) :
    ∃ d, body.publishedDate = some d ∧ d ≠ [] ∧ validatePublishedDate host now d = true ∧
      (validateBook host now body).validatedData.publishedDate = some d := by
  obtain ⟨_, _, _, _, ⟨d, hd, hne, hvd⟩, _⟩ := (validateBook_isValid_iff host now body).1 hv
  exact ⟨d, hd, hne, hvd, hd⟩

/-- C12 (counterexample): an add whose published date is "2020" is accepted, and the
catalog then holds "2020", which is not of the form `YYYY-MM-DD`. -/
theorem stored_date_not_canonical :
    (postBook noHost 1730000000000 1730000000000
      { fictionBody 1 with publishedDate := some "2020".toList } seed).1.status = 201 ∧
    (postBook noHost 1730000000000 1730000000000
      { fictionBody 1 with publishedDate := some "2020".toList } seed).2.books.map
        (fun b => b.publishedDate) =
      [some "1960-07-11".toList, some "2010-06-14".toList, some "1949-06-08".toList,
       some "2020".toList] ∧
    isCanonicalDate "2020".toList = false := by
  decide

/-- C12 (amended): for every request body accepted by add (201) or update (200), the
`publishedDate` stored in the catalog record is the body's `publishedDate` unchanged: a
non-empty string that parses to an instant not after the clock. The server does not
normalise it. -/
theorem stored_publishedDate (host : JsString → Option Int) (now idNow : Int)
    (bookId : JsString) (body : Book) (s : Ledger) :
    ((postBook host now idNow body s).1.status = 201 →
      ∃ stored d, (postBook host now idNow body s).2.books = s.books ++ [stored] ∧
        stored.publishedDate = body.publishedDate ∧ body.publishedDate = some d ∧ d ≠ [] ∧
        validatePublishedDate host now d = true) ∧
    ((putBook host now bookId body s).1.status = 200 →
      ∃ i stored d, i < s.books.length ∧
        (putBook host now bookId body s).2.books = s.books.set i stored ∧
        stored.publishedDate = body.publishedDate ∧ body.publishedDate = some d ∧ d ≠ [] ∧
        validatePublishedDate host now d = true) := by
  constructor
  · intro hst
    cases hv : (validateBook host now body).isValid with
    | false =>
      rw [postBook_invalid host now idNow body s hv] at hst
      simp at hst
    | true =>
      obtain ⟨d, hd, hne, hvd, hvd'⟩ := valid_publishedDate host now body hv
      rw [postBook_valid host now idNow body s hv]
      exact ⟨_, d, rfl, hvd'.trans hd.symm, hd, hne, hvd⟩
  · intro hst
    rcases putBook_cases host now bookId body s with
      ⟨_, h⟩ | ⟨pre, old, post, h1, _, _, _, ⟨_, h⟩ | ⟨hv, h⟩⟩
    · rw [h] at hst; simp at hst
    · rw [h] at hst; simp at hst
    · obtain ⟨d, hd, hne, hvd, hvd'⟩ := valid_publishedDate host now body hv
      rw [h]
      refine ⟨pre.length,
        { spread old (validateBook host now body).validatedData with id := some bookId }, d,
        by rw [h1]; simp, ?_, ?_, hd, hne, hvd⟩
      · rw [h1, List.set_append_right _ _ (le_refl _)]
        simp
      · simp only [spread, hvd', hd, Option.orElse]

/-- C12 (witness): the accepted add of the counterexample stores "2020" as sent. -/
theorem stored_publishedDate_witness :
    (postBook noHost 1730000000000 1730000000000
      { fictionBody 1 with publishedDate := some "2020".toList } seed).1.status = 201 ∧
    ∃ stored d, (postBook noHost 1730000000000 1730000000000
        { fictionBody 1 with publishedDate := some "2020".toList } seed).2.books =
          seed.books ++ [stored] ∧
      stored.publishedDate = some "2020".toList ∧ some "2020".toList = some d ∧ d ≠ [] ∧
      validatePublishedDate noHost 1730000000000 d = true :=
  ⟨by decide,
    (stored_publishedDate noHost 1730000000000 1730000000000 []
      { fictionBody 1 with publishedDate := some "2020".toList } seed).1 (by decide)⟩

/-- C20 (counterexample): an accepted update of the seed's book `2` whose body has no
`genre` and no `copiesAvailable` leaves the stored record with the previous genre
"Academic" and the previous 5 copies; it is not the validated body with the id set. -/
theorem update_keeps_missing_fields :
    (putBook noHost 1730000000000 "2".toList bareBody seed).1.status = 200 ∧
    (putBook noHost 1730000000000 "2".toList bareBody seed).2.books[1]? =
      some { bareBody with id := some "2".toList, genre := some "Academic".toList,
                           copiesAvailable := .num 5 } ∧
    (putBook noHost 1730000000000 "2".toList bareBody seed).2.books[1]? ≠
      some { (validateBook noHost 1730000000000 bareBody).validatedData with
             id := some "2".toList } := by
  decide

/-- C20 (amended): for every state, every id of a catalog book and every body that passes
validation, a successful update stores the previous record overlaid with the validated
body and the path id: title, author, ISBN and published date come from the validated
body, and `genre`, `copiesAvailable` and `borrowedDate` come from the body when it has
them and from the previous record when it does not. -/
theorem putBook_success (host : JsString → Option Int) (now : Int) (bookId : JsString)
    (body : Book) (s : Ledger) (old : Book)
    (hfind : s.books.find? (hasId bookId) = some old)
    (hv : (validateBook host now body).isValid = true) :
    ∃ i, i < s.books.length ∧ s.books[i]? = some old ∧
      putBook host now bookId body s =
        ({ status := 200, body := .book (updatedRecord bookId body old) },
         { s with books := s.books.set i (updatedRecord bookId body old) }) := by
  obtain ⟨d, hd, _, _, _⟩ := valid_publishedDate host now body hv
  have hstored : ({ spread old (validateBook host now body).validatedData with
        id := some bookId } : Book) = updatedRecord bookId body old := by
    rw [validateBook_validatedData]
    simp only [spread, updatedRecord, hd, Option.orElse, Book.mk.injEq, true_and]
    refine ⟨?_, ?_, ?_⟩
    · cases body.genre <;> rfl
    · cases body.copiesAvailable <;> rfl
    · cases body.borrowedDate <;> rfl
  rcases putBook_cases host now bookId body s with
    ⟨h3, _⟩ | ⟨pre, old', post, h1, _, _, h4, ⟨hv', _⟩ | ⟨_, h⟩⟩
  · have := List.find?_some hfind
    have hm := List.mem_of_find?_eq_some hfind
    rw [h3 old hm] at this
    cases this
  · rw [hv] at hv'; cases hv'
  · rw [hfind] at h4
    cases h4
    refine ⟨pre.length, by rw [h1]; simp, ?_, ?_⟩
    · rw [h1, List.getElem?_append_right (le_refl _)]; simp
    · rw [h, hstored, h1, List.set_append_right _ _ (le_refl _)]
      simp

/-- C20 (witness): the update of the counterexample, applied to the seed's book `2`. -/
theorem putBook_success_witness :
    seed.books.find? (hasId "2".toList) = some seedBook2 ∧
    (validateBook noHost 1730000000000 bareBody).isValid = true ∧
    updatedRecord "2".toList bareBody seedBook2 =
      { bareBody with id := some "2".toList, genre := some "Academic".toList,
                      copiesAvailable := .num 5 } ∧
    ∃ i, i < seed.books.length ∧ seed.books[i]? = some seedBook2 ∧
      putBook noHost 1730000000000 "2".toList bareBody seed =
        ({ status := 200, body := .book (updatedRecord "2".toList bareBody seedBook2) },
         { seed with books := seed.books.set i (updatedRecord "2".toList bareBody seedBook2) }) :=
  ⟨by decide, by decide, by decide,
    putBook_success noHost 1730000000000 "2".toList bareBody seed seedBook2
      (by decide) (by decide)⟩

end Server

/-! ## The ledger: frame of update and delete, ids, two borrows -/

namespace Server

/-- C21: an update of an id that no book has answers 404 and leaves the state unchanged; an
update whose body fails validation leaves the state unchanged; a successful update
replaces the record at one catalog position by a record whose id is the path id, whatever
id the body carries, leaves every other position, the number and the order of the books
unchanged; and `userBooks` is unchanged in every case. -/
theorem putBook_frame (host : JsString → Option Int) (now : Int) (bookId : JsString)
    (body : Book) (s : Ledger) :
    ((∀ b ∈ s.books, b.id ≠ some bookId) →
      (putBook host now bookId body s).1.status = 404 ∧ (putBook host now bookId body s).2 = s) ∧
    ((validateBook host now body).isValid = false → (putBook host now bookId body s).2 = s) ∧
    ((putBook host now bookId body s).1.status = 200 →
      ∃ i old stored, i < s.books.length ∧ s.books[i]? = some old ∧ old.id = some bookId ∧
        (putBook host now bookId body s).1.body = .book stored ∧
        (putBook host now bookId body s).2.books = s.books.set i stored ∧
        stored.id = some bookId ∧
        (putBook host now bookId body s).2.books.length = s.books.length ∧
        ∀ j, j ≠ i → (putBook host now bookId body s).2.books[j]? = s.books[j]?) ∧
    (putBook host now bookId body s).2.userBooks = s.userBooks := by
  rcases putBook_cases host now bookId body s with
    ⟨h0, h⟩ | ⟨pre, old, post, h1, _, h3, _, ⟨hv, h⟩ | ⟨hv, h⟩⟩
  · rw [h]
    refine ⟨fun _ => ⟨rfl, rfl⟩, fun _ => rfl, fun hst => ?_, rfl⟩
    simp at hst
  · rw [h]
    refine ⟨fun hno => ?_, fun _ => rfl, fun hst => ?_, rfl⟩
    · have hid : old.id = some bookId := by simpa [hasId] using h3
      exact absurd hid (hno old (by rw [h1]; simp))
    · simp at hst
  · rw [h]
    have hid : old.id = some bookId := by simpa [hasId] using h3
    refine ⟨fun hno => ?_, fun hf => ?_, fun _ => ?_, rfl⟩
    · exact absurd hid (hno old (by rw [h1]; simp))
    · rw [hv] at hf; cases hf
    · refine ⟨pre.length, old,
        { spread old (validateBook host now body).validatedData with id := some bookId },
        by rw [h1]; simp, ?_, hid, rfl, ?_, rfl, ?_, ?_⟩
      · rw [h1, List.getElem?_append_right (le_refl _)]; simp
      · rw [h1, List.set_append_right _ _ (le_refl _)]; simp
      · rw [h1]; simp
      · intro j hj
        have hset : pre ++ { spread old (validateBook host now body).validatedData with
            id := some bookId } :: post =
            s.books.set pre.length
              { spread old (validateBook host now body).validatedData with
                id := some bookId } := by
          rw [h1, List.set_append_right _ _ (le_refl _)]; simp
        simp only
        rw [hset, List.getElem?_set_ne (Ne.symm hj)]

/-- C21 (witness): an update of the seed's book `2` whose body carries the id `9`. -/
theorem putBook_frame_witness :
    (putBook noHost 1730000000000 "2".toList { fictionBody 7 with id := some "9".toList }
      seed).1.status = 200 ∧
    ∃ i old stored, i < seed.books.length ∧ seed.books[i]? = some old ∧
      old.id = some "2".toList ∧
      (putBook noHost 1730000000000 "2".toList { fictionBody 7 with id := some "9".toList }
        seed).1.body = .book stored ∧
      (putBook noHost 1730000000000 "2".toList { fictionBody 7 with id := some "9".toList }
        seed).2.books = seed.books.set i stored ∧
      stored.id = some "2".toList ∧
      (putBook noHost 1730000000000 "2".toList { fictionBody 7 with id := some "9".toList }
        seed).2.books.length = seed.books.length ∧
      ∀ j, j ≠ i →
        (putBook noHost 1730000000000 "2".toList { fictionBody 7 with id := some "9".toList }
          seed).2.books[j]? = seed.books[j]? :=
  ⟨by decide,
    (putBook_frame noHost 1730000000000 "2".toList { fictionBody 7 with id := some "9".toList }
      seed).2.2.1 (by decide)⟩

theorem filter_length_eq {α : Type} (p : α → Bool) (l : List α)
    (h : (l.filter p).length = l.length) : l.filter p = l :=
  (List.filter_sublist l).eq_of_length h

/-- C22: delete answers 404 exactly when no catalog book has the id, and then `books` and
`userBooks` are unchanged; otherwise it answers 200 and the catalog keeps exactly the books
with another id, unchanged and in their order; `userBooks` is unchanged in both cases, so
loans of a deleted book stay. -/
theorem deleteBook_spec (bookId : JsString) (s : Ledger) :
    ((deleteBook bookId s).1.status = 404 ↔ ∀ b ∈ s.books, b.id ≠ some bookId) ∧
    ((deleteBook bookId s).1.status = 404 → (deleteBook bookId s).2 = s) ∧
    ((deleteBook bookId s).1.status ≠ 404 → (deleteBook bookId s).1.status = 200) ∧
    (deleteBook bookId s).2.books = s.books.filter (fun b => b.id != some bookId) ∧
    List.Sublist (deleteBook bookId s).2.books s.books ∧
    (∀ b, b ∈ (deleteBook bookId s).2.books ↔ b ∈ s.books ∧ b.id ≠ some bookId) ∧
    (deleteBook bookId s).2.userBooks = s.userBooks := by
  have hmem : ∀ b, b ∈ s.books.filter (fun b => b.id != some bookId) ↔
      b ∈ s.books ∧ b.id ≠ some bookId := by
    intro b; simp [List.mem_filter]
  by_cases hl : (s.books.filter (fun b => b.id != some bookId)).length = s.books.length
  · have hf := filter_length_eq _ _ hl
    have hout : deleteBook bookId s =
        ({ status := 404, body := .errors [notFoundMessage bookId] }, s) := by
      simp only [deleteBook, hl, beq_self_eq_true, if_true, hf]
    rw [hout]
    refine ⟨⟨fun _ b hb => ?_, fun _ => rfl⟩, fun _ => rfl, fun h => absurd rfl h, hf.symm,
      List.Sublist.refl _, ?_, rfl⟩
    · rw [← hf] at hb
      exact ((hmem b).1 hb).2
    · intro b
      rw [← hmem b, hf]
  · have hout : deleteBook bookId s =
        ({ status := 200, body := .success "Book deleted successfully".toList },
         { s with books := s.books.filter (fun b => b.id != some bookId) }) := by
      simp only [deleteBook, beq_iff_eq, hl, if_false]
    rw [hout]
    refine ⟨⟨fun h => ?_, fun h => ?_⟩, fun h => ?_, fun _ => rfl, rfl,
      List.filter_sublist _, hmem, rfl⟩
    · simp at h
    · exfalso
      apply hl
      congr 1
      rw [List.filter_eq_self]
      intro b hb
      simpa using h b hb
    · simp at h

/-- C23 (failing input): two accepted adds that read the same clock value for the id
leave two catalog books with the same id. -/
theorem add_ids_collide :
    (handle noHost (.postBook 1730000000000 1730000000000 (fictionBody 1)) seed).1.status =
      201 ∧
    (handle noHost (.postBook 1730000000000 1730000000000 (fictionBody 2))
      (run noHost [.postBook 1730000000000 1730000000000 (fictionBody 1)] seed)).1.status =
      201 ∧
    (run noHost [.postBook 1730000000000 1730000000000 (fictionBody 1),
        .postBook 1730000000000 1730000000000 (fictionBody 2)] seed).books.map
      (fun b => b.id) =
      [some "1".toList, some "2".toList, some "3".toList, some "1730000000000".toList,
       some "1730000000000".toList] := by
  decide

/-- C27: with the handlers run one after the other, as the single-threaded server does, two
borrow requests for a book with one copy give one success and one out-of-stock failure;
afterwards the book has 0 copies and exactly one new loan exists. -/
theorem two_borrows_one_copy (now1 now2 : Int) (bookId : JsString) (s : Ledger) (book : Book)
    (hfind : s.books.find? (hasId bookId) = some book)
    (h1 : book.copiesAvailable = .num 1) :
    (borrowBook now1 bookId s).1.status = 200 ∧
    (borrowBook now2 bookId (borrowBook now1 bookId s).2).1.status = 400 ∧
    ((borrowBook now2 bookId (borrowBook now1 bookId s).2).2.books.find? (hasId bookId)).map
      (fun b => b.copiesAvailable) = some (.num 0) ∧
    (borrowBook now2 bookId (borrowBook now1 bookId s).2).2.userBooks =
      s.userBooks ++ [{ book with borrowedDate := some (toISOString now1) }] := by
  rcases find_split (hasId bookId) s.books with ⟨h0, _, _⟩ | ⟨pre, b, post, hs, hpre, hb, h4, h5⟩
  · rw [h0] at hfind; cases hfind
  · rw [h4] at hfind
    cases hfind
    have hle : book.copiesAvailable.le 0 = false := by rw [h1]; decide
    have hpred : book.copiesAvailable.pred = .num 0 := by rw [h1]; rfl
    have hfirst : borrowBook now1 bookId s =
        ({ status := 200, body := .book { book with borrowedDate := some (toISOString now1) } },
         { books := pre ++ { book with copiesAvailable := .num 0 } :: post,
           userBooks := s.userBooks ++ [{ book with borrowedDate := some (toISOString now1) }] })
        := by
      simp only [borrowBook, h4, h5, hle, Bool.false_eq_true, if_false, hpred]
      rw [hs, List.set_append_right _ _ (le_refl _)]
      simp
    have hb' : hasId bookId { book with copiesAvailable := .num 0 } = true := hb
    have hfind2 : (pre ++ { book with copiesAvailable := .num 0 } :: post).find?
        (hasId bookId) = some { book with copiesAvailable := .num 0 } := by
      rw [List.find?_append, List.find?_eq_none.2 (fun x hx => by simp [hpre x hx])]
      simp [hb']
    have hsecond : borrowBook now2 bookId (borrowBook now1 bookId s).2 =
        ({ status := 400, body := .errors ["No copies available for borrowing".toList] },
         (borrowBook now1 bookId s).2) := by
      rw [hfirst]
      simp only [borrowBook, hfind2, NumField.le, le_refl, decide_True, if_true]
    rw [hsecond, hfirst]
    exact ⟨rfl, rfl, by simp only [hfind2]; rfl, rfl⟩

/-- C27 (witness): two borrows of a book added with one copy. -/
theorem two_borrows_one_copy_witness :
    (run noHost [.postBook 1730000000000 7 (fictionBody 1)] seed).books.find?
      (hasId "7".toList) = some { fictionBody 1 with id := some "7".toList } ∧
    ({ fictionBody 1 with id := some "7".toList } : Book).copiesAvailable = .num 1 ∧
    (borrowBook 1 "7".toList (run noHost [.postBook 1730000000000 7 (fictionBody 1)] seed)
      ).1.status = 200 ∧
    (borrowBook 2 "7".toList
      (borrowBook 1 "7".toList (run noHost [.postBook 1730000000000 7 (fictionBody 1)] seed)).2
      ).1.status = 400 :=
  have h := two_borrows_one_copy 1 2 "7".toList
    (run noHost [.postBook 1730000000000 7 (fictionBody 1)] seed)
    { fictionBody 1 with id := some "7".toList } (by decide) rfl
  ⟨by decide, rfl, h.1, h.2.1⟩

end Server

/-! ## The validation engines on the two scenarios; id, fixed point, UTC reading -/

/-- A string that the ISO date-only reader recognises is read the same by every host. -/
theorem dateParse_of_parseIsoDate (host : JsString → Option Int) (s : JsString) (t : Int)
    (h : parseIsoDate s = some t) (hc : timeClip t = some t) : dateParse host s = some t := by
  simp [dateParse, h, hc]

theorem normalizeDate_normalizeDate (host : JsString → Option Int) (x : Option JsString) :
    Validator.normalizeDate host (some (Validator.normalizeDate host x)) =
      Validator.normalizeDate host x := by
  rcases normalizeDate_cases host x with ⟨h0, _⟩ | ⟨s, t, _, _, hp, hn⟩
  · rw [h0]; rfl
  · obtain ⟨b1, b2⟩ := dateParse_range host s t hp
    rw [hn]
    exact normalizeDate_isoDatePart host t b1 b2

/-- C24: for the record `{title:"X", author:"Y", ISBN:"123", publishedDate:"2099-01-01",
genre:"Academic", copiesAvailable:1}` and every current instant before 2099-01-01 (UTC),
both engines answer invalid with exactly the three messages for the ISBN format, the
future date and the academic minimum, in this order. -/
theorem scenario_invalid_errors (host : JsString → Option Int) (now : Int)
    (h : now < 4070908800000) :
    (Server.validateBook host now scenarioInvalid).isValid = false ∧
    (Server.validateBook host now scenarioInvalid).errors =
      ["Invalid ISBN format (must be 10 or 13 digits)".toList,
       "Published date cannot be in the future".toList,
       "Academic books must have at least 5 copies available".toList] ∧
    (Validator.validateBook host now scenarioInvalid).isValid = false ∧
    (Validator.validateBook host now scenarioInvalid).errors =
      ["Invalid ISBN format (must be 10 or 13 digits)".toList,
       "Published date cannot be in the future".toList,
       "Academic books must have at least 5 copies available".toList] := by
  have hp : dateParse host "2099-01-01".toList = some 4070908800000 :=
    dateParse_of_parseIsoDate host _ _ (by decide) (by decide)
  have hn : Validator.normalizeDate host (some "2099-01-01".toList) = "2099-01-01".toList := by
    have := normalizeDate_ymd host 2099 1 1 (by decide) (by decide)
    rwa [show ymd 2099 1 1 = "2099-01-01".toList by decide] at this
  have hd : decide ((4070908800000 : Int) ≤ now) = false := by
    simp only [decide_eq_false_iff_not]; omega
  have hvs : Server.validatePublishedDate host now "2099-01-01".toList = false := by
    simp only [Server.validatePublishedDate, hp, hd]
  have hvc : Validator.validatePublishedDate host now "2099-01-01".toList = false := by
    simp only [Validator.validatePublishedDate, hp, hd]
  have es : (Server.validateBook host now scenarioInvalid).errors =
      ["Invalid ISBN format (must be 10 or 13 digits)".toList,
       "Published date cannot be in the future".toList,
       "Academic books must have at least 5 copies available".toList] := by
    rw [Server.serverErrors_eq]
    have e1 : Server.sanitizeString scenarioInvalid.title ≠ [] := by decide
    have e2 : Server.sanitizeString scenarioInvalid.author ≠ [] := by decide
    have e3 : Server.sanitizeString scenarioInvalid.ISBN ≠ [] := by decide
    have e4 : Server.validateISBN (Server.sanitizeString scenarioInvalid.ISBN) = false := by
      decide
    have e5 : Server.validateAcademicCopies scenarioInvalid.genre
        scenarioInvalid.copiesAvailable = false := by decide
    have e6 : scenarioInvalid.publishedDate = some "2099-01-01".toList := rfl
    have e7 : "2099-01-01".toList ≠ ([] : JsString) := by decide
    rw [if_neg e1, if_neg e2, if_neg e3, if_pos e4, if_pos e5, e6]
    simp only [if_neg e7, hvs, if_true]
    rfl
  have ec : (Validator.validateBook host now scenarioInvalid).errors =
      ["Invalid ISBN format (must be 10 or 13 digits)".toList,
       "Published date cannot be in the future".toList,
       "Academic books must have at least 5 copies available".toList] := by
    rw [Validator.clientErrors_eq]
    have e1 : Validator.sanitizeString scenarioInvalid.title ≠ [] := by decide
    have e2 : Validator.sanitizeString scenarioInvalid.author ≠ [] := by decide
    have e3 : Validator.sanitizeString scenarioInvalid.ISBN ≠ [] := by decide
    have e4 : Validator.validateISBN (Validator.sanitizeString scenarioInvalid.ISBN) = false := by
      decide
    have e5 : Validator.validateAcademicCopies scenarioInvalid.genre
        scenarioInvalid.copiesAvailable = false := by decide
    have e6 : scenarioInvalid.publishedDate = some "2099-01-01".toList := rfl
    have e7 : "2099-01-01".toList ≠ ([] : JsString) := by decide
    rw [if_neg e1, if_neg e2, if_neg e3, if_pos e4, if_pos e5, e6, hn, if_neg e7, hvc]
    rfl
  rw [Server.serverIsValid_eq, Validator.clientIsValid_eq, es, ec]
  exact ⟨rfl, rfl, rfl, rfl⟩

/-- C24 (witness): the scenario checked at 2024-11-05 20:00 UTC. -/
theorem scenario_invalid_errors_witness :
    (1730836800000 : Int) < 4070908800000 ∧
    (Server.validateBook Server.noHost 1730836800000 scenarioInvalid).isValid = false ∧
    (Validator.validateBook Server.noHost 1730836800000 scenarioInvalid).errors =
      ["Invalid ISBN format (must be 10 or 13 digits)".toList,
       "Published date cannot be in the future".toList,
       "Academic books must have at least 5 copies available".toList] :=
  have h := scenario_invalid_errors Server.noHost 1730836800000 (by decide)
  ⟨by decide, h.1, h.2.2.2⟩

/-- C25: for the record `{title:"1984", author:"George Orwell", ISBN:"9780451524935",
publishedDate:"1949-06-08", genre:"Fiction", copiesAvailable:2}` and every current instant
on or after 1949-06-08 (UTC), both engines answer valid with an empty error list, and the
`publishedDate` of `validatedData` is still "1949-06-08". -/
theorem scenario_valid (host : JsString → Option Int) (now : Int)
    (h : -649036800000 ≤ now) :
    (Server.validateBook host now scenarioValid).isValid = true ∧
    (Server.validateBook host now scenarioValid).errors = [] ∧
    (Server.validateBook host now scenarioValid).validatedData.publishedDate =
      some "1949-06-08".toList ∧
    (Validator.validateBook host now scenarioValid).isValid = true ∧
    (Validator.validateBook host now scenarioValid).errors = [] ∧
    (Validator.validateBook host now scenarioValid).validatedData.publishedDate =
      some "1949-06-08".toList := by
  have hp : dateParse host "1949-06-08".toList = some (-649036800000) :=
    dateParse_of_parseIsoDate host _ _ (by decide) (by decide)
  have hn : Validator.normalizeDate host (some "1949-06-08".toList) = "1949-06-08".toList := by
    have := normalizeDate_ymd host 1949 6 8 (by decide) (by decide)
    rwa [show ymd 1949 6 8 = "1949-06-08".toList by decide] at this
  have hd : decide ((-649036800000 : Int) ≤ now) = true := by
    simp only [decide_eq_true_eq]; omega
  have hvs : Server.validatePublishedDate host now "1949-06-08".toList = true := by
    simp only [Server.validatePublishedDate, hp, hd]
  have hvc : Validator.validatePublishedDate host now "1949-06-08".toList = true := by
    simp only [Validator.validatePublishedDate, hp, hd]
  have es : (Server.validateBook host now scenarioValid).errors = [] := by
    rw [Server.serverErrors_eq]
    have e1 : Server.sanitizeString scenarioValid.title ≠ [] := by decide
    have e2 : Server.sanitizeString scenarioValid.author ≠ [] := by decide
    have e3 : Server.sanitizeString scenarioValid.ISBN ≠ [] := by decide
    have e4 : ¬ Server.validateISBN (Server.sanitizeString scenarioValid.ISBN) = false := by
      decide
    have e5 : ¬ Server.validateAcademicCopies scenarioValid.genre
        scenarioValid.copiesAvailable = false := by decide
    have e6 : scenarioValid.publishedDate = some "1949-06-08".toList := rfl
    have e7 : "1949-06-08".toList ≠ ([] : JsString) := by decide
    rw [if_neg e1, if_neg e2, if_neg e3, if_neg e4, if_neg e5, e6]
    simp only [if_neg e7, hvs, Bool.true_eq_false, if_false]
    rfl
  have ec : (Validator.validateBook host now scenarioValid).errors = [] := by
    rw [Validator.clientErrors_eq]
    have e1 : Validator.sanitizeString scenarioValid.title ≠ [] := by decide
    have e2 : Validator.sanitizeString scenarioValid.author ≠ [] := by decide
    have e3 : Validator.sanitizeString scenarioValid.ISBN ≠ [] := by decide
    have e4 : ¬ Validator.validateISBN (Validator.sanitizeString scenarioValid.ISBN) = false := by
      decide
    have e5 : ¬ Validator.validateAcademicCopies scenarioValid.genre
        scenarioValid.copiesAvailable = false := by decide
    have e6 : scenarioValid.publishedDate = some "1949-06-08".toList := rfl
    have e7 : "1949-06-08".toList ≠ ([] : JsString) := by decide
    rw [if_neg e1, if_neg e2, if_neg e3, if_neg e4, if_neg e5, e6, hn, if_neg e7, hvc]
    simp only [Bool.true_eq_false, if_false]
    rfl
  have hvd : (Validator.validateBook host now scenarioValid).validatedData.publishedDate =
      some "1949-06-08".toList := by
    rw [Validator.clientValidatedData_eq]
    show some (Validator.normalizeDate host (some "1949-06-08".toList)) = _
    rw [hn]
  rw [Server.serverIsValid_eq, Validator.clientIsValid_eq, es, ec]
  exact ⟨rfl, rfl, rfl, rfl, rfl, hvd⟩

/-- C25 (witness): the scenario checked at 2024-11-05 20:00 UTC. -/
theorem scenario_valid_witness :
    (-649036800000 : Int) ≤ 1730836800000 ∧
    (Server.validateBook Server.noHost 1730836800000 scenarioValid).isValid = true ∧
    (Validator.validateBook Server.noHost 1730836800000 scenarioValid).isValid = true ∧
    (Validator.validateBook Server.noHost 1730836800000 scenarioValid).validatedData.publishedDate
      = some "1949-06-08".toList :=
  have h := scenario_valid Server.noHost 1730836800000 (by decide)
  ⟨by decide, h.1, h.2.2.2.1, h.2.2.2.2.2⟩

/-- C26: neither engine reads or writes `id`: replacing the id of the input, or removing
it, changes neither `isValid` nor the error list; `validatedData.id` is the id of the
input (absent stays absent); and the rest of `validatedData` does not depend on the id. -/
theorem validateBook_ignores_id (host : JsString → Option Int) (now : Int) (r : Book)
    (id' : Option JsString) :
    (Server.validateBook host now { r with id := id' }).isValid =
      (Server.validateBook host now r).isValid ∧
    (Server.validateBook host now { r with id := id' }).errors =
      (Server.validateBook host now r).errors ∧
    (Server.validateBook host now r).validatedData.id = r.id ∧
    (Server.validateBook host now { r with id := id' }).validatedData =
      { (Server.validateBook host now r).validatedData with id := id' } ∧
    (Validator.validateBook host now { r with id := id' }).isValid =
      (Validator.validateBook host now r).isValid ∧
    (Validator.validateBook host now { r with id := id' }).errors =
      (Validator.validateBook host now r).errors ∧
    (Validator.validateBook host now r).validatedData.id = r.id ∧
    (Validator.validateBook host now { r with id := id' }).validatedData =
      { (Validator.validateBook host now r).validatedData with id := id' } :=
  ⟨rfl, rfl, rfl, rfl, rfl, rfl, rfl, rfl⟩

/-- C28: for every date that exists, written `YYYY-MM-DD`, and every current instant,
`validatePublishedDate` (client and server) is true exactly when midnight UTC of the date
is not after the current instant, that is, when the date is not later than the UTC
calendar date of the current instant. -/
theorem validatePublishedDate_ymd (host : JsString → Option Int) (now : Int) (y m d : Nat)
    (hy : y ≤ 9999) (hv : validCivil y m d = true) :
    (Validator.validatePublishedDate host now (ymd y m d) = true ↔
      daysFromCivil y m d * msPerDay ≤ now) ∧
    (Server.validatePublishedDate host now (ymd y m d) = true ↔
      daysFromCivil y m d * msPerDay ≤ now) ∧
    (daysFromCivil y m d * msPerDay ≤ now ↔
      daysFromCivil y m d ≤
        daysFromCivil (civilFromDays (now / msPerDay)).1 (civilFromDays (now / msPerDay)).2.1
          (civilFromDays (now / msPerDay)).2.2) := by
  have hp := dateParse_ymd host y m d hy hv
  refine ⟨?_, ?_, ?_⟩
  · simp only [Validator.validatePublishedDate, hp, decide_eq_true_eq]
  · simp only [Server.validatePublishedDate, hp, decide_eq_true_eq]
  · rw [daysFromCivil_civilFromDays]
    simp only [msPerDay]
    omega

/-- C28 (witness): the date 2024-11-05 checked at 2024-11-05 20:00 UTC. -/
theorem validatePublishedDate_ymd_witness :
    (2024 : Nat) ≤ 9999 ∧ validCivil 2024 11 5 = true ∧
    ymd 2024 11 5 = "2024-11-05".toList ∧
    Validator.validatePublishedDate Server.noHost 1730836800000 (ymd 2024 11 5) = true :=
  ⟨by decide, by decide, by decide,
    (validatePublishedDate_ymd Server.noHost 1730836800000 2024 11 5 (by decide)
      (by decide)).1.2 (by decide)⟩

/-- C29: the normalised record is a fixed point of the client's `validateBook`: validating
`validatedData` again, at the same instant, returns the same `validatedData`, the same
`isValid` and the same error list. -/
theorem validateBook_fixed_point (host : JsString → Option Int) (now : Int) (r : Book) :
    (Validator.validateBook host now (Validator.validateBook host now r).validatedData
      ).validatedData = (Validator.validateBook host now r).validatedData ∧
    (Validator.validateBook host now (Validator.validateBook host now r).validatedData
      ).isValid = (Validator.validateBook host now r).isValid ∧
    (Validator.validateBook host now (Validator.validateBook host now r).validatedData
      ).errors = (Validator.validateBook host now r).errors := by
  have he : (Validator.validateBook host now
      (Validator.validateBook host now r).validatedData).errors =
      (Validator.validateBook host now r).errors := by
    rw [Validator.clientErrors_eq, Validator.clientErrors_eq host now r,
      Validator.clientValidatedData_eq]
    simp only [Validator.clientSanitize_idem, normalizeDate_normalizeDate]
  refine ⟨?_, ?_, he⟩
  · rw [Validator.clientValidatedData_eq, Validator.clientValidatedData_eq]
    simp only [Validator.clientSanitize_idem, normalizeDate_normalizeDate]
  · rw [Validator.clientIsValid_eq, Validator.clientIsValid_eq host now r, he]

/-! ## The reducer of the dashboard against the server ledger -/

theorem map_replace_unique {α : Type} (p : α → Bool) (u : α) (pre post : List α) (b : α)
    (hpre : ∀ x ∈ pre, p x = false) (hb : p b = true) (hpost : ∀ x ∈ post, p x = false) :
    (pre ++ b :: post).map (fun x => if p x = true then u else x) = pre ++ u :: post := by
  have h1 : pre.map (fun x => if p x = true then u else x) = pre := by
    conv_rhs => rw [← List.map_id pre]
    apply List.map_congr_left
    intro x hx
    simp [hpre x hx]
  have h2 : post.map (fun x => if p x = true then u else x) = post := by
    conv_rhs => rw [← List.map_id post]
    apply List.map_congr_left
    intro x hx
    simp [hpost x hx]
  simp only [List.map_append, List.map_cons, h1, h2, hb, if_true]

theorem unique_post {α : Type} (p : α → Bool) (pre post : List α) (b : α) (hb : p b = true)
    (hu : ((pre ++ b :: post).filter p).length ≤ 1) : ∀ x ∈ post, p x = false := by
  intro x hx
  by_contra hp
  have hpx : p x = true := by simpa using hp
  have hmem : x ∈ post.filter p := List.mem_filter.2 ⟨hx, hpx⟩
  have hpos : 0 < (post.filter p).length := List.length_pos_of_mem hmem
  simp only [List.filter_append, List.filter_cons, hb, if_true, List.length_append,
    List.length_cons] at hu
  omega

theorem filter_none {α : Type} (p : α → Bool) (l : List α) (h : ∀ x ∈ l, p x = true) :
    l.filter p = l := List.filter_eq_self.2 h

theorem map_none {α : Type} (p : α → Bool) (f : α → α) (l : List α)
    (h : ∀ x ∈ l, p x = false) : l.map (fun x => if p x = true then f x else x) = l := by
  conv_rhs => rw [← List.map_id l]
  apply List.map_congr_left
  intro x hx
  simp [h x hx]

namespace Server

/-- The three outcomes of a borrow. -/
theorem borrowBook_cases (now : Int) (bookId : JsString) (s : Ledger) :
    ((borrowBook now bookId s).1.status = 404 ∧ (borrowBook now bookId s).2 = s) ∨
    ((borrowBook now bookId s).1.status = 400 ∧ (borrowBook now bookId s).2 = s) ∨
    (∃ pre book post, s.books = pre ++ book :: post ∧ (∀ b ∈ pre, hasId bookId b = false) ∧
      hasId bookId book = true ∧ s.books.find? (hasId bookId) = some book ∧
      borrowBook now bookId s =
        ({ status := 200, body := .book { book with borrowedDate := some (toISOString now) } },
         { books := pre ++ { book with copiesAvailable := book.copiesAvailable.pred } :: post,
           userBooks := s.userBooks ++
             [{ book with borrowedDate := some (toISOString now) }] })) := by
  rcases find_split (hasId bookId) s.books with ⟨h0, _, _⟩ | ⟨pre, b, post, hs, hpre, hb, h4, h5⟩
  · left
    simp only [borrowBook, h0, and_self]
  · by_cases hle : b.copiesAvailable.le 0 = true
    · right; left
      simp only [borrowBook, h4, hle, if_true, and_self]
    · right; right
      refine ⟨pre, b, post, hs, hpre, hb, h4, ?_⟩
      simp only [borrowBook, h4, h5, hle, Bool.false_eq_true, if_false]
      rw [hs, List.set_append_right _ _ (le_refl _)]
      simp

/-- The two outcomes of a return. -/
theorem returnBook_cases (bookId : JsString) (s : Ledger) :
    ((returnBook bookId s).1.status = 404 ∧ (returnBook bookId s).2 = s) ∨
    ((returnBook bookId s).1.status = 200 ∧
      (returnBook bookId s).2.userBooks =
        s.userBooks.filter (fun book => book.id != some bookId) ∧
      (((∀ b ∈ s.books, hasId bookId b = false) ∧ (returnBook bookId s).2.books = s.books) ∨
       (∃ pre old post, s.books = pre ++ old :: post ∧ (∀ b ∈ pre, hasId bookId b = false) ∧
          hasId bookId old = true ∧ s.books.find? (hasId bookId) = some old ∧
          (returnBook bookId s).2.books =
            pre ++ { old with copiesAvailable := old.copiesAvailable.succ } :: post))) := by
  cases hu : s.userBooks.findIdx? (hasId bookId) with
  | none =>
    left
    simp only [returnBook, hu, and_self]
  | some k =>
    right
    rcases find_split (hasId bookId) s.books with
      ⟨h0, h0', hall⟩ | ⟨pre, old, post, hs, hpre, hb, h4, h5⟩
    · refine ⟨?_, ?_, Or.inl ⟨hall, ?_⟩⟩ <;> simp only [returnBook, hu, h0, h0']
    · refine ⟨?_, ?_, Or.inr ⟨pre, old, post, hs, hpre, hb, h4, ?_⟩⟩
      · simp only [returnBook, hu]
      · simp only [returnBook, hu]
      · simp only [returnBook, hu, h4, h5]
        rw [hs, List.set_append_right _ _ (le_refl _)]
        simp

end Server

namespace Dashboard

open Server

/-- C30 (counterexample): with one loan of book `1` held, the server's delete of book `1`
succeeds and keeps the loan, while the reducer's `DELETE_BOOK_SUCCESS` on the same lists
removes it; the server's update of book `1` keeps the loan as it was, while the reducer's
`UPDATE_BOOK_SUCCESS` with the stored record rewrites it. -/
theorem reducer_differs_on_loans :
    (deleteBook "1".toList (run noHost [.borrowBook 0 "1".toList] seed)).1.status = 200 ∧
    (deleteBook "1".toList (run noHost [.borrowBook 0 "1".toList] seed)).2.userBooks =
      [{ seedBook1 with borrowedDate := some (toISOString 0) }] ∧
    (booksReducer (ofLedger (run noHost [.borrowBook 0 "1".toList] seed))
      (.deleteBookSuccess "1".toList)).map (fun c => c.userBooks) = some [] ∧
    (putBook noHost 1730000000000 "1".toList (fictionBody 7)
      (run noHost [.borrowBook 0 "1".toList] seed)).1 =
      { status := 200, body := .book { fictionBody 7 with id := some "1".toList } } ∧
    (putBook noHost 1730000000000 "1".toList (fictionBody 7)
      (run noHost [.borrowBook 0 "1".toList] seed)).2.userBooks =
      [{ seedBook1 with borrowedDate := some (toISOString 0) }] ∧
    (booksReducer (ofLedger (run noHost [.borrowBook 0 "1".toList] seed))
      (.updateBookSuccess { fictionBody 7 with id := some "1".toList })).map
        (fun c => c.userBooks) =
      some [{ fictionBody 7 with id := some "1".toList,
                                 borrowedDate := some (toISOString 0) }] := by
  decide

/-- C30 (amended): on equal `books` and `userBooks` lists the reducer agrees with the
server as follows. Add, with the record the server stores as payload: same lists. Delete:
same `books`, and same `userBooks` when no loan has the id. Update that succeeds on the
server, with the stored record as payload, when one catalog book has the id: same `books`,
and same `userBooks` when no loan has the id. Borrow that succeeds on the server, when one
catalog book has the id: same `books`, and `userBooks` with the same new loan up to its
timestamp. Return that succeeds on the server, when exactly one catalog book has the id:
same lists. -/
theorem reducer_matches_server (host : JsString → Option Int) (now nowC idNow : Int)
    (bookId : JsString) (body : Book) (s : Ledger) :
    ((postBook host now idNow body s).1.status = 201 →
      ∃ stored, (postBook host now idNow body s).1.body = .book stored ∧
        booksReducer (ofLedger s) (.addBookSuccess stored) =
          some (ofLedger (postBook host now idNow body s).2)) ∧
    (∃ c, booksReducer (ofLedger s) (.deleteBookSuccess bookId) = some c ∧
      c.books = (deleteBook bookId s).2.books ∧
      ((∀ l ∈ s.userBooks, l.id ≠ some bookId) →
        c.userBooks = (deleteBook bookId s).2.userBooks)) ∧
    ((putBook host now bookId body s).1.status = 200 →
      (s.books.filter (hasId bookId)).length ≤ 1 →
      ∃ stored c, (putBook host now bookId body s).1.body = .book stored ∧
        booksReducer (ofLedger s) (.updateBookSuccess stored) = some c ∧
        c.books = (putBook host now bookId body s).2.books ∧
        ((∀ l ∈ s.userBooks, l.id ≠ some bookId) →
          c.userBooks = (putBook host now bookId body s).2.userBooks)) ∧
    ((borrowBook now bookId s).1.status = 200 →
      (s.books.filter (hasId bookId)).length ≤ 1 →
      ∃ (book : Book) (c : State), booksReducer (ofLedger s) (.borrowBookSuccess nowC bookId) = some c ∧
        c.books = (borrowBook now bookId s).2.books ∧
        (borrowBook now bookId s).2.userBooks =
          s.userBooks ++ [{ book with borrowedDate := some (toISOString now) }] ∧
        c.userBooks = s.userBooks ++ [{ book with borrowedDate := some (toISOString nowC) }]) ∧
    ((returnBook bookId s).1.status = 200 →
      (s.books.filter (hasId bookId)).length = 1 →
      booksReducer (ofLedger s) (.returnBookSuccess bookId) =
        some (ofLedger (returnBook bookId s).2)) := by
  refine ⟨?_, ?_, ?_, ?_, ?_⟩
  · -- add
    intro hst
    cases hv : (validateBook host now body).isValid with
    | false =>
      rw [postBook_invalid host now idNow body s hv] at hst
      simp at hst
    | true =>
      rw [postBook_valid host now idNow body s hv]
      exact ⟨_, rfl, rfl⟩
  · -- delete
    have hb : (deleteBook bookId s).2.books =
        s.books.filter (fun b => b.id != some bookId) := by
      simp only [deleteBook]
      split_ifs <;> rfl
    have hu : (deleteBook bookId s).2.userBooks = s.userBooks := by
      simp only [deleteBook]
      split_ifs <;> rfl
    refine ⟨_, rfl, ?_, fun hno => ?_⟩
    · rw [hb]; rfl
    · rw [hu]
      show s.userBooks.filter (fun book => book.id != some bookId) = s.userBooks
      apply filter_none
      intro l hl
      simpa using hno l hl
  · -- update
    intro hst hu
    rcases putBook_cases host now bookId body s with
      ⟨_, h⟩ | ⟨pre, old, post, h1, hpre, h3, _, ⟨_, h⟩ | ⟨_, h⟩⟩
    · rw [h] at hst; simp at hst
    · rw [h] at hst; simp at hst
    · rw [h]
      rw [h1] at hu
      have hpost := unique_post (hasId bookId) pre post old h3 hu
      refine ⟨_, _, rfl, rfl, ?_, fun hno => ?_⟩
      · show (s.books.map _) = _
        rw [h1]
        exact map_replace_unique (hasId bookId) _ pre post old hpre h3 hpost
      · show (s.userBooks.map _) = s.userBooks
        exact map_none (hasId bookId) _ s.userBooks
          (fun l hl => by simpa [hasId] using hno l hl)
  · -- borrow
    intro hst hu
    rcases borrowBook_cases now bookId s with ⟨h, _⟩ | ⟨h, _⟩ | ⟨pre, book, post, h1, hpre, h3, h4, h⟩
    · rw [h] at hst; simp at hst
    · rw [h] at hst; simp at hst
    · rw [h]
      rw [h1] at hu
      have hpost := unique_post (hasId bookId) pre post book h3 hu
      have hfind : (ofLedger s).books.find? (fun b => b.id == some bookId) = some book := h4
      have hred : ∃ c, booksReducer (ofLedger s) (.borrowBookSuccess nowC bookId) = some c ∧
          c.books = s.books.map (fun b =>
            if (b.id == some bookId) = true then
              { book with copiesAvailable := book.copiesAvailable.pred } else b) ∧
          c.userBooks =
            s.userBooks ++ [{ book with borrowedDate := some (toISOString nowC) }] := by
        simp only [booksReducer, hfind]
        exact ⟨_, rfl, rfl, rfl⟩
      obtain ⟨c, hc, hcb, hcu⟩ := hred
      refine ⟨book, c, hc, ?_, rfl, hcu⟩
      rw [hcb, h1]
      exact map_replace_unique (hasId bookId) _ pre post book hpre h3 hpost
  · -- return
    intro hst hu
    rcases returnBook_cases bookId s with ⟨h, _⟩ | ⟨_, hub, ⟨hall, _⟩ | ⟨pre, old, post, h1, hpre, h3, h4, hbk⟩⟩
    · rw [h] at hst; simp at hst
    · exfalso
      have : s.books.filter (hasId bookId) = [] :=
        List.filter_eq_nil_iff.2 (fun b hb => by simp [hall b hb])
      rw [this] at hu
      simp at hu
    · rw [h1] at hu
      have hpost := unique_post (hasId bookId) pre post old h3 (le_of_eq hu)
      have hfind : (ofLedger s).books.find? (fun b => b.id == some bookId) = some old := h4
      simp only [booksReducer, hfind]
      have hbooks : (ofLedger s).books.map (fun b =>
          if (b.id == some bookId) = true then
            { old with copiesAvailable := old.copiesAvailable.succ } else b) =
          (returnBook bookId s).2.books := by
        rw [hbk]
        show (s.books.map _) = _
        rw [h1]
        exact map_replace_unique (hasId bookId) _ pre post old hpre h3 hpost
      rw [hbooks]
      simp only [ofLedger, hub]

/-- C30 (witness): a borrow of the seed's book `3`, seen by the reducer at another clock
reading. -/
theorem reducer_matches_server_witness :
    (borrowBook 5 "3".toList seed).1.status = 200 ∧
    (seed.books.filter (hasId "3".toList)).length ≤ 1 ∧
    ∃ (book : Book) (c : State), booksReducer (ofLedger seed) (.borrowBookSuccess 9 "3".toList) = some c ∧
      c.books = (borrowBook 5 "3".toList seed).2.books ∧
      (borrowBook 5 "3".toList seed).2.userBooks =
        seed.userBooks ++ [{ book with borrowedDate := some (toISOString 5) }] ∧
      c.userBooks = seed.userBooks ++ [{ book with borrowedDate := some (toISOString 9) }] :=
  ⟨by decide, by decide,
    (reducer_matches_server noHost 5 9 0 "3".toList seedBook3 seed).2.2.2.1 (by decide)
      (by decide)⟩

end Dashboard
